import Mathlib

/-!
Shallow embedding of the darktable develop-engine core (src/develop/develop.c):
the history stack (append / truncate / pop), the autosave policy, the preset
resolver gate, the persisted-history reader, the hash-wait protocol, the
render jobs, and module-instance duplication.  Machine integers are modelled
by Nat/Int, wall-clock times by the rationals, parameter blobs by byte lists,
and the pipeline change bitset by a record of booleans.  Database rows and
external oracles (legacy-parameter migration, mipmap buffers) are explicit
inputs.
-/

namespace Develop

/-! ### Definitions -/

/-- Capability flags of an operation type (spec section 3; the
dt_iop_module_t flag accessors hide_enable_button, default_enabled and the
IOP_FLAGS bits used in develop.c). -/
structure ModuleFlags where
  default_enabled : Bool := false
  hide_enable_button : Bool := false
  no_history_stack : Bool := false
  one_instance : Bool := false
  supports_blending : Bool := false
deriving DecidableEq, Repr

/-- A live module instance (dt_iop_module_t as used by develop.c).  `mid` is
the identity of the C object (pointer identity); `so` identifies the
operation type (module->so); `instance_key` models module->instance (shared
by all instances of one operation). -/
structure Module where
  mid : Nat
  so : Nat := 0
  instance_key : Nat := 0
  multi_priority : Nat := 0
  multi_name : String := ""
  multi_name_hand_edited : Bool := false
  enabled : Bool := false
  params_size : Nat := 0
  params : List Nat := []
  default_params : List Nat := []
  blend_params : List Nat := []
  default_blendop_params : List Nat := []
  iop_order : Int := 0
  write_input_hint : Bool := false
  version : Int := 1
  flags : ModuleFlags := {}
deriving DecidableEq, Repr

instance : Inhabited Module := ⟨{ mid := 0 }⟩

/-- One history entry (dt_dev_history_item_t).  `mid` models the
hist->module back-pointer, `op_so` the op_name copy, `forms` the optional
deep-copied mask list (none when masks were not included). -/
structure HistItem where
  mid : Nat
  op_so : Nat := 0
  focus_hash : Nat := 0
  enabled : Bool := false
  params : List Nat := []
  blend_params : List Nat := []
  iop_order : Int := 0
  multi_priority : Nat := 0
  multi_name : String := ""
  multi_name_hand_edited : Bool := false
  num : Nat := 0
  forms : Option (List Nat) := none
deriving DecidableEq, Repr

/-- The pipeline change bitset (DT_DEV_PIPE_TOP_CHANGED, _ZOOMED, _SYNCH,
_REMOVE); the empty record is DT_DEV_PIPE_UNCHANGED. -/
structure PipeFlags where
  top_changed : Bool := false
  zoomed : Bool := false
  synch : Bool := false
  remove : Bool := false
deriving DecidableEq, Repr

/-- changed |= DT_DEV_PIPE_TOP_CHANGED -/
def PipeFlags.orTop (f : PipeFlags) : PipeFlags := { f with top_changed := true }

/-- changed |= DT_DEV_PIPE_SYNCH -/
def PipeFlags.orSynch (f : PipeFlags) : PipeFlags := { f with synch := true }

/-- changed |= DT_DEV_PIPE_REMOVE -/
def PipeFlags.orRemove (f : PipeFlags) : PipeFlags := { f with remove := true }

/-- changed != DT_DEV_PIPE_UNCHANGED -/
def PipeFlags.raised (f : PipeFlags) : Bool :=
  f.top_changed || f.zoomed || f.synch || f.remove

/-- One row of the per-image operation-ordering list (spec section 4.3):
(operation, instance-priority, rank). -/
structure IopOrderEntry where
  op_so : Nat
  instance_prio : Nat
  o : Int
deriving DecidableEq, Repr

/-- Pipeline/back-buffer status words (dt_dev_pixelpipe_status_t). -/
inductive PipeStatus where
  | dirty
  | running
  | valid
  | invalid
deriving DecidableEq, Repr

/-- The develop state (dt_develop_t), restricted to the fields develop.c
manipulates in the operations under study.  The autosave `last` static of
_dev_auto_save is modelled as the field `last_save` (spec section 9 design
note); `persist_count` counts dt_dev_write_history/sidecar writes and
`slow_drive_notice` records the dt_control_log user notice. -/
structure Dev where
  iop : List Module
  history : List HistItem := []
  history_end : Nat := 0
  focus_hash : Nat := 0
  forms : List Nat := []
  iop_order_list : List IopOrderEntry := []
  pipe_changed : PipeFlags := {}
  preview_pipe_changed : PipeFlags := {}
  preview2_pipe_changed : PipeFlags := {}
  image_status : PipeStatus := PipeStatus.dirty
  preview_status : PipeStatus := PipeStatus.dirty
  preview2_status : PipeStatus := PipeStatus.dirty
  timestamp : Nat := 0
  autosaving : Bool := false
  last_save : ℚ := 0
  image_loading : Bool := false
  requested_id : Int := 1
  image_id : Int := 1
  persist_count : Nat := 0
  slow_drive_notice : Bool := false
deriving DecidableEq, Repr

/-- Resolve a history item's module back-pointer: the first module of the
list with the given identity. -/
def findModule (iop : List Module) (mid : Nat) : Option Module :=
  iop.find? (fun m => m.mid == mid)

/-- Dereference a module back-pointer (total, with a default that the
well-formedness hypotheses of the theorems rule out). -/
def getModuleD (iop : List Module) (mid : Nat) : Module :=
  (findModule iop mid).getD default

/-- dt_is_valid_imgid.  Modelled from the spec: an image handle is a
positive identifier (the function itself lives outside develop.c). -/
def dt_is_valid_imgid (imgid : Int) : Bool :=
  0 < imgid

/-- The removal loop of _dev_add_history_item_ext over the entries above
history_end: an entry is deleted when its module is neither
hide_enable_button nor default_enabled, or when an earlier entry for the
same operation exists below history_end; otherwise it is kept and counted.
`active` is the (unchanged) prefix [0, history_end) that the backward
earlier-entry scan ranges over. -/
def truncLoop (iop : List Module) (active : List HistItem) :
    List HistItem → List HistItem × Nat
  | [] => ([], 0)
  | h :: rest =>
      let m := getModuleD iop h.mid
      let earlier_entry := active.any (fun p => (getModuleD iop p.mid).so == m.so)
      if ((!m.flags.hide_enable_button && !m.flags.default_enabled) || earlier_entry) then
        truncLoop iop active rest
      else
        let lk := truncLoop iop active rest
        (h :: lk.1, lk.2 + 1)

/-- The first phase of _dev_add_history_item_ext (develop.c lines 995-1034):
drop obsolete items above history_end through `truncLoop`, trim a
history_end that points past the list, then advance it by the number of
kept modules. -/
def truncateRedoTail (dev : Dev) : Dev :=
  let active := dev.history.take dev.history_end
  let lk := truncLoop dev.iop active (dev.history.drop dev.history_end)
  let newHist := active ++ lk.1
  { dev with history := newHist
           , history_end := min dev.history_end newHist.length + lk.2 }

/-- The fresh history entry allocated by the push branch of
_dev_add_history_item_ext: a snapshot of the module's live state plus the
develop focus hash and (optionally) a deep copy of the edited mask forms. -/
def snapshotEntry (dev : Dev) (m : Module) (include_masks : Bool) : HistItem :=
  { mid := m.mid
  , op_so := m.so
  , focus_hash := dev.focus_hash
  , enabled := m.enabled
  , params := m.params
  , blend_params := m.blend_params
  , iop_order := m.iop_order
  , multi_priority := m.multi_priority
  , multi_name := m.multi_name
  , multi_name_hand_edited := m.multi_name_hand_edited
  , forms := if include_masks then some dev.forms else none }

/-- The in-place update performed by the replace branch of
_dev_add_history_item_ext: parameters, ordering and labels are refreshed
from the module, blend parameters only when the module supports blending,
the mask list only when masks are included; the entry's focus hash is left
as recorded. -/
def replaceEntry (dev : Dev) (m : Module) (include_masks : Bool) (h : HistItem) : HistItem :=
  { h with params := m.params
         , blend_params := if m.flags.supports_blending then m.blend_params else h.blend_params
         , iop_order := m.iop_order
         , multi_priority := m.multi_priority
         , multi_name := m.multi_name
         , multi_name_hand_edited := m.multi_name_hand_edited
         , enabled := m.enabled
         , forms := if include_masks then some dev.forms else h.forms }

/-- The push-versus-replace decision of _dev_add_history_item_ext
(develop.c lines 1054-1064), evaluated against the post-truncation tail
entry: push when there is no tail entry, a new item was requested, the tail
belongs to a different module object, instance or instance-priority, or the
focus hash changed and there is an actual difference (parameter size,
included masks, or parameter bytes). -/
def pushCond (dev : Dev) (m : Module) (new_item include_masks : Bool)
    (tail : Option HistItem) : Bool :=
  match tail with
  | none => true
  | some hist =>
      let hm := getModuleD dev.iop hist.mid
      new_item
      || decide (hist.mid ≠ m.mid)
      || decide (m.instance_key ≠ hm.instance_key)
      || decide (m.multi_priority ≠ hm.multi_priority)
      || (decide (dev.focus_hash ≠ hist.focus_hash)
          && (decide (m.params_size ≠ hm.params_size)
              || include_masks
              || (decide (m.params_size = hm.params_size)
                  && decide (hist.params ≠ m.params))))

/-- _dev_auto_save (develop.c lines 906-944): persist history and sidecar
when the configured delay is at least one second, more than that delay
elapsed since the last save, the image is not loading, the requested image
is the current one and the id is valid; a save that took over half a second
disables autosaving for the session and emits a user notice. -/
def _dev_auto_save (dev : Dev) (user_delay now spent : ℚ) : Dev :=
  let imgid := dev.image_id
  let saving := decide (1 ≤ user_delay)
                && decide (user_delay < now - dev.last_save)
                && !dev.image_loading
                && decide (dev.requested_id = imgid)
                && dt_is_valid_imgid imgid
  if saving then
    let dev := { dev with persist_count := dev.persist_count + 1, last_save := now }
    if (1 : ℚ) / 2 < spent then
      { dev with autosaving := false, slow_drive_notice := true }
    else dev
  else dev

/-- The enable step of _dev_add_history_item_ext: module->enabled = TRUE. -/
def setEnabled (iop : List Module) (mid : Nat) : List Module :=
  iop.map (fun m => if m.mid = mid then { m with enabled := true } else m)

/-- module->write_input_hint = TRUE (set when the module is enabled and an
image is attached). -/
def setWriteHint (iop : List Module) (mid : Nat) : List Module :=
  iop.map (fun m => if m.mid = mid then { m with write_input_hint := true } else m)

/-- Replace the post-truncation tail entry of the history in place. -/
def replaceTopOfHistory (dev : Dev) (m : Module) (include_masks : Bool) : List HistItem :=
  let i := dev.history_end - 1
  match dev.history[i]? with
  | some h => dev.history.set i (replaceEntry dev m include_masks h)
  | none => dev.history

/-- The phases of _dev_add_history_item_ext after the redo-tail removal
and the enable step: the push-or-replace decision on the looked-up tail
entry, the write_input_hint update and the autosave hook. -/
def addItemAfterEnable (dev0 : Dev) (mid : Nat) (tail : Option HistItem)
    (new_item no_image include_masks : Bool)
    (user_delay now spent : ℚ) : Dev :=
  let dev := dev0
  let m := getModuleD dev.iop mid
  let dev :=
    if pushCond dev m new_item include_masks tail then
      let dev := { dev with history_end := dev.history_end + 1
                          , history := dev.history ++ [snapshotEntry dev m include_masks] }
      if no_image then dev
      else { dev with pipe_changed := dev.pipe_changed.orSynch
                    , preview_pipe_changed := dev.preview_pipe_changed.orSynch
                    , preview2_pipe_changed := dev.preview2_pipe_changed.orSynch }
    else
      let dev := { dev with history := replaceTopOfHistory dev m include_masks }
      if no_image then dev
      else { dev with pipe_changed := dev.pipe_changed.orTop
                    , preview_pipe_changed := dev.preview_pipe_changed.orTop
                    , preview2_pipe_changed := dev.preview2_pipe_changed.orTop }
  let dev := if m.enabled && !no_image then { dev with iop := setWriteHint dev.iop mid } else dev
  if dev.autosaving then _dev_auto_save dev user_delay now spent else dev

/-- The phases of _dev_add_history_item_ext after the redo-tail removal:
tail lookup, the enable step, then the push-or-replace phases. -/
def addItemCore (dev : Dev) (mid : Nat)
    (enable new_item no_image include_masks : Bool)
    (user_delay now spent : ℚ) : Dev :=
  let tail : Option HistItem :=
    if dev.history_end = 0 then none else dev.history[dev.history_end - 1]?
  addItemAfterEnable
    (if enable then { dev with iop := setEnabled dev.iop mid } else dev)
    mid tail new_item no_image include_masks user_delay now spent

/-- _dev_add_history_item_ext (develop.c lines 981-1131): remove the
obsolete redo tail, then run the append phases.  The auto-label step is
omitted: it only rewrites module.multi_name from external preset
configuration and takes no part in the push/replace decision.  `user_delay`
models the autosave_interval configuration, `now` the wall clock at the
call and `spent` the duration of the database/sidecar write. -/
def _dev_add_history_item_ext (dev0 : Dev) (mid : Nat)
    (enable new_item no_image include_masks : Bool)
    (user_delay now spent : ℚ) : Dev :=
  addItemCore (truncateRedoTail dev0) mid enable new_item no_image include_masks
    user_delay now spent

/-- dt_dev_add_history_item_ext (develop.c lines 1148-1154): the append API
with new_item = false and no mask copy. -/
def dt_dev_add_history_item_ext (dev : Dev) (mid : Nat) (enable no_image : Bool)
    (user_delay now spent : ℚ) : Dev :=
  _dev_add_history_item_ext dev mid enable false no_image false user_delay now spent

/-- INT_MAX, the sentinel order given to multi-instance modules before
replay assigns their recorded order. -/
def intMax : Int := 2 ^ 31 - 1

/-- dt_ioppr_get_iop_order.  Modelled from the spec: the ordering list maps
an (operation, instance-priority) pair to its rank (spec section 4.3); the
function itself lives in the iop-order component outside develop.c. -/
def dt_ioppr_get_iop_order (lst : List IopOrderEntry) (so prio : Nat) : Int :=
  match lst.find? (fun e => e.op_so == so && e.instance_prio == prio) with
  | some e => e.o
  | none => intMax

/-- The per-module reset step of dt_dev_pop_history_items_ext (develop.c
lines 1413-1427): parameters, blend parameters and the enabled flag return
to the module defaults, the ordering rank comes from the per-image ordering
list for base instances and INT_MAX for higher instance-priorities. -/
def resetModule (olist : List IopOrderEntry) (m : Module) : Module :=
  { m with params := m.default_params
         , blend_params := m.default_blendop_params
         , enabled := m.flags.default_enabled
         , iop_order := if m.multi_priority = 0
                        then dt_ioppr_get_iop_order olist m.so m.multi_priority
                        else intMax }

/-- The per-entry replay step of dt_dev_pop_history_items_ext (develop.c
lines 1432-1448): the entry's snapshot is written back into its module
(parameters only when the module has a parameter record). -/
def applyHistToModule (h : HistItem) (m : Module) : Module :=
  { m with params := if m.params_size = 0 then m.params else h.params
         , blend_params := h.blend_params
         , iop_order := h.iop_order
         , enabled := h.enabled
         , multi_name := h.multi_name
         , multi_name_hand_edited := h.multi_name_hand_edited }

/-- Replay one history entry across the module list. -/
def replayStep (iop : List Module) (h : HistItem) : List Module :=
  iop.map (fun m => if m.mid = h.mid then applyHistToModule h m else m)

/-- dt_ioppr_resync_modules_order.  Modelled from the spec: rank defines
pipeline position (spec sections 3 and 4.3), so the module-instance list is
re-sorted by its iop_order ranks; the function itself lives in the
iop-order component outside develop.c. -/
def dt_ioppr_resync_modules_order (iop : List Module) : List Module :=
  iop.mergeSort (fun a b => a.iop_order ≤ b.iop_order)

/-- The last mask-form set seen while replaying entries [0, cnt): the C
code keeps overwriting a `forms` variable with hist->forms whenever it is
non-NULL. -/
def lastForms (entries : List HistItem) : Option (List Nat) :=
  entries.foldl (fun acc h => match h.forms with | some f => some f | none => acc) none

/-- The mask-change scan of dt_dev_pop_history_items_ext (develop.c lines
1457-1475): some entry strictly between the old and the new cursor carries
a mask-form list. -/
def masksChanged (history : List HistItem) (cnt end_prev : Nat) : Bool :=
  ((history.drop (min cnt end_prev)).take (max cnt end_prev - min cnt end_prev)).any
    (fun h => h.forms.isSome)

/-- dt_dev_pop_history_items_ext (develop.c lines 1404-1476): move the
cursor to cnt, reset every module to its defaults, replay entries [0, cnt)
into the modules, re-sort the module list by rank, and refresh the current
mask forms when a mask change lies between the old and new cursor. -/
def dt_dev_pop_history_items_ext (dev : Dev) (cnt : Nat) : Dev :=
  let end_prev := dev.history_end
  let iop1 := dev.iop.map (resetModule dev.iop_order_list)
  let iop2 := (dev.history.take cnt).foldl replayStep iop1
  let iop3 := dt_ioppr_resync_modules_order iop2
  let forms' := if masksChanged dev.history cnt end_prev
                then (lastForms (dev.history.take cnt)).getD []
                else dev.forms
  { dev with history_end := cnt, iop := iop3, forms := forms' }

/-- The topology comparison of dt_dev_pop_history_items (develop.c lines
1499-1520): the copied old module list is walked in lockstep with the new
one, comparing the (shared, possibly mutated) module objects' current
iop_order values position by position. -/
def devIopOrderChanged (oldMids : List Nat) (newIop : List Module) : Bool :=
  decide (oldMids.length ≠ newIop.length)
  || (List.zip newIop (oldMids.map (getModuleD newIop))).any
       (fun p => decide (p.1.iop_order ≠ p.2.iop_order))

/-- dt_dev_pixelpipe_rebuild.  Modelled from the spec: a module-set or
ordering change schedules a REMOVE rebuild of every pipeline (spec sections
4.2 and 4.6); the function itself lives in pixelpipe code outside
develop.c. -/
def dt_dev_pixelpipe_rebuild (dev : Dev) : Dev :=
  { dev with pipe_changed := dev.pipe_changed.orRemove
           , preview_pipe_changed := dev.preview_pipe_changed.orRemove
           , preview2_pipe_changed := dev.preview2_pipe_changed.orRemove }

/-- dt_dev_invalidate_all (develop.c lines 264-268): every pipeline status
becomes DIRTY and the develop timestamp is bumped. -/
def dt_dev_invalidate_all (dev : Dev) : Dev :=
  { dev with image_status := PipeStatus.dirty
           , preview_status := PipeStatus.dirty
           , preview2_status := PipeStatus.dirty
           , timestamp := dev.timestamp + 1 }

/-- Mark all three pipelines SYNCH (the fixed-topology branch of
dt_dev_pop_history_items, develop.c lines 1522-1527). -/
def synchAllPipes (dev : Dev) : Dev :=
  { dev with pipe_changed := dev.pipe_changed.orSynch
           , preview_pipe_changed := dev.preview_pipe_changed.orSynch
           , preview2_pipe_changed := dev.preview2_pipe_changed.orSynch }

/-- dt_dev_pop_history_items (develop.c lines 1478-1540): run the history
pop, then either synch the pipelines (module ordering unchanged) or
schedule a REMOVE rebuild (ordering changed), and invalidate all
back-buffers. -/
def dt_dev_pop_history_items (dev : Dev) (cnt : Nat) : Dev :=
  let oldMids := dev.iop.map (fun m => m.mid)
  let d := dt_dev_pop_history_items_ext dev cnt
  let d := if devIopOrderChanged oldMids d.iop
           then dt_dev_pixelpipe_rebuild d
           else synchAllPipes d
  dt_dev_invalidate_all d

/-- One persisted row of main.history as consumed by
dt_dev_read_history_ext (the SELECT of develop.c lines 2177-2186).
`module_name` is the operation TEXT column (none models SQL NULL, the
operation identifier is a Nat like Module.so); blobs are optional byte
lists (none models a NULL blob of length 0). -/
structure DbRow where
  row_imgid : Int := 1
  num : Nat := 0
  modversion : Int := 1
  module_name : Option Nat := none
  op_params : Option (List Nat) := none
  enabled : Bool := false
  blendop_params : Option (List Nat) := none
  blendop_version : Int := 0
  multi_priority : Nat := 0
  multi_name : String := ""
  multi_name_hand_edited : Bool := false
deriving DecidableEq, Repr

/-- External collaborators of dt_dev_read_history_ext, passed as oracles:
the current blend schema (dt_develop_blend_version and the blend-params
record size), the two legacy-migration hooks (result and success flag of
dt_develop_blend_legacy_params and dt_iop_legacy_params), and the
operation identifiers of the two special-cased modules (flip, spots). -/
structure ReadEnv where
  blend_version : Int := 0
  blend_params_size : Nat := 0
  blend_legacy_ok : DbRow → Bool := fun _ => false
  blend_legacy_bytes : DbRow → List Nat := fun _ => []
  iop_legacy_fail : DbRow → Bool := fun _ => false
  iop_legacy_bytes : DbRow → List Nat := fun _ => []
  flip_so : Nat := 0
  spots_so : Nat := 0

/-- The module-search loop of dt_dev_read_history_ext (develop.c lines
2256-2281): scan for a module of the row's operation; select it when the
instance-priority matches or the operation is single-instance (copying the
row's label onto it), otherwise remember it as `find_op` when the row asks
for a higher instance.  Returns the (possibly relabelled) module list, the
selected module's identity and the remembered base module. -/
def selectHistModule (name prio : Nat) (mname : String) (hand : Bool) :
    List Module → Option Module → List Module × Option Nat × Option Module
  | [], fop => ([], none, fop)
  | m :: rest, fop =>
      if m.so = name then
        if m.multi_priority = prio ∨ m.flags.one_instance then
          ({ m with multi_name := mname, multi_name_hand_edited := hand } :: rest,
           some m.mid, fop)
        else
          let fop' := if 0 < prio then some m else fop
          let r := selectHistModule name prio mname hand rest fop'
          (m :: r.1, r.2.1, r.2.2)
      else
        let r := selectHistModule name prio mname hand rest fop
        (m :: r.1, r.2.1, r.2.2)

/-- dt_iop_load_module for a fresh higher instance (develop.c lines
2284-2298).  Modelled from the spec: a new instance of an installed type
starts from the type's defaults (spec section 3, operation instance); the
loader itself lives in imageop code outside develop.c.  The new module then
receives the row's instance-priority, ordering rank and label. -/
def loadNewModule (base : Module) (freshMid prio : Nat) (iord : Int)
    (mname : String) (hand : Bool) : Module :=
  { mid := freshMid
  , so := base.so
  , instance_key := base.instance_key
  , multi_priority := prio
  , multi_name := mname
  , multi_name_hand_edited := hand
  , enabled := base.flags.default_enabled
  , params_size := base.params_size
  , params := base.default_params
  , default_params := base.default_params
  , blend_params := base.default_blendop_params
  , default_blendop_params := base.default_blendop_params
  , iop_order := iord
  , version := base.version
  , flags := base.flags }

/-- The accumulating state of the row loop of dt_dev_read_history_ext:
the module list (mutated by relabelling, rank updates and fresh
instances), the in-memory history under construction, the running
history_end counter and a supply of fresh module identities. -/
structure ReadState where
  iop : List Module
  history : List HistItem := []
  history_end : Nat := 0
  fresh : Nat := 1000
deriving Repr

/-- Update one module's ordering rank inside the module list (the
hist->module->iop_order write of develop.c line 2364). -/
def setIopOrder (iop : List Module) (mid : Nat) (iord : Int) : List Module :=
  iop.map (fun m => if m.mid = mid then { m with iop_order := iord } else m)

/-- The history entry constructed for one row (develop.c lines 2326-2444):
schema validation, blend copy or legacy migration, parameter copy or legacy
migration with the flip and spots special cases; `none` models the
continue on a failed parameter migration. -/
def readHistoryEntry (env : ReadEnv) (row : DbRow) (name mid : Nat) (m : Module)
    (iop_order : Int) : Option HistItem :=
  let param_length := (row.op_params.getD []).length
  let bl_length := (row.blendop_params.getD []).length
  let is_valid_module_name := decide (name = m.so)
  let is_valid_blendop_version := decide (row.blendop_version = env.blend_version)
  let is_valid_blendop_size := decide (bl_length = env.blend_params_size)
  let is_valid_module_version := decide (row.modversion = m.version)
  let is_valid_params_size := decide (param_length = m.params_size)
  let blend :=
    if row.blendop_params.isSome && is_valid_blendop_version && is_valid_blendop_size then
      row.blendop_params.getD []
    else if row.blendop_params.isSome && env.blend_legacy_ok row then
      env.blend_legacy_bytes row
    else
      m.default_blendop_params
  let base : HistItem :=
    { mid := mid
    , op_so := m.so
    , enabled := row.enabled
    , num := row.num
    , iop_order := iop_order
    , multi_priority := if m.flags.one_instance then 0 else row.multi_priority
    , multi_name := row.multi_name
    , multi_name_hand_edited := row.multi_name_hand_edited
    , blend_params := blend
    , params := [] }
  if param_length = 0 then
    some { base with params := m.default_params }
  else if is_valid_module_version && is_valid_params_size && is_valid_module_name then
    some { base with params := row.op_params.getD [] }
  else if env.iop_legacy_fail row then
    none
  else
    let blend' := if m.so = env.spots_so ∧ row.modversion = 1
                  then m.blend_params else blend
    let e := { base with params := env.iop_legacy_bytes row
                       , blend_params := blend' }
    if m.so = env.flip_so ∧ ¬row.enabled ∧ (row.modversion = 1 ∨ row.modversion = -1) then
      some { e with params := m.default_params, enabled := true }
    else
      some e

/-- The append step of one row (develop.c lines 2446-2453): the always-on
forcing and the push onto the in-memory history (no push when the entry
migration failed). -/
def readHistoryAppend (st : ReadState) (iop3 : List Module) (fresh' : Nat)
    (m : Module) (entry? : Option HistItem) : ReadState :=
  match entry? with
  | none => { st with iop := iop3, fresh := fresh' }
  | some e =>
    let e := if m.flags.default_enabled && m.flags.hide_enable_button
             then { e with enabled := true } else e
    { iop := iop3
    , history := st.history ++ [e]
    , history_end := st.history_end + 1
    , fresh := fresh' }

/-- The tail of one row-loop iteration of dt_dev_read_history_ext once the
row's module has been located or created (develop.c lines 2300-2453): the
NO_HISTORY_STACK skip, the rank write on a fresh load, then the entry
construction and append above.  `mid` names the located module inside
`iop2`. -/
def readHistoryRowBody (env : ReadEnv) (olist : List IopOrderEntry)
    (history_end_current : Nat) (st : ReadState) (row : DbRow) (name : Nat)
    (mid : Nat) (iop2 : List Module) (fresh' : Nat) : ReadState :=
  let iop_order := dt_ioppr_get_iop_order olist name row.multi_priority
  let m0 := getModuleD iop2 mid
  if m0.flags.no_history_stack then
    { st with iop := iop2, fresh := fresh' }
  else
    let iop3 := if history_end_current > st.history_end
                then setIopOrder iop2 mid iop_order
                else iop2
    let m := getModuleD iop3 mid
    readHistoryAppend st iop3 fresh' m (readHistoryEntry env row name mid m iop_order)

/-- One iteration of the row loop of dt_dev_read_history_ext (develop.c
lines 2214-2453): sanity checks and module lookup or creation, followed by
the row body above. -/
def readHistoryRow (env : ReadEnv) (olist : List IopOrderEntry)
    (history_end_current : Nat) (imgid : Int) (st : ReadState) (row : DbRow) : ReadState :=
  match row.module_name with
  | none => st
  | some name =>
    if ¬(row.row_imgid = imgid) then st
    else
      let iop_order := dt_ioppr_get_iop_order olist name row.multi_priority
      let sel := selectHistModule name row.multi_priority row.multi_name
                   row.multi_name_hand_edited st.iop none
      let iop1 := sel.1
      match sel.2.1, sel.2.2 with
      | none, none => { st with iop := iop1 }
      | selMid?, fop? =>
        let midAndIop : Nat × List Module × Nat :=
          match selMid?, fop? with
          | some mid, _ => (mid, iop1, st.fresh)
          | none, some base =>
              (st.fresh,
               iop1 ++ [loadNewModule base st.fresh row.multi_priority iop_order
                          row.multi_name row.multi_name_hand_edited],
               st.fresh + 1)
          | none, none => (0, iop1, st.fresh)
        readHistoryRowBody env olist history_end_current st row name
          midAndIop.1 midAndIop.2.1 midAndIop.2.2

/-- dt_dev_read_history_ext for a regular (non-snapshot) load with an
image attached (develop.c lines 2087-2545), restricted to the in-memory
effects: the transient default-module and preset initialisation happens in
the database, so the merged row set is the `rows` input; after the loop
the module order is resynced, the cursor comes from the image record, and
the pipelines are synched.  Persistence writes (history table, hash,
sidecar) are external. -/
def dt_dev_read_history_ext (env : ReadEnv) (dev : Dev) (imgid : Int)
    (rows : List DbRow) (db_history_end : Nat) (freshStart : Nat)
    (gui_attached : Bool) : Dev :=
  if ¬dt_is_valid_imgid imgid then dev
  else if dev.iop.isEmpty then dev
  else
    let st0 : ReadState :=
      { iop := dev.iop, history := dev.history, history_end := 0, fresh := freshStart }
    let st := rows.foldl (readHistoryRow env dev.iop_order_list db_history_end imgid) st0
    let iop' := dt_ioppr_resync_modules_order st.iop
    let dev := { dev with iop := iop', history := st.history, history_end := db_history_end }
    if gui_attached then dt_dev_invalidate_all (synchAllPipes dev) else dev

/-- _dev_add_default_modules (develop.c lines 1928-1957): the modules
inserted into the transient history before presets are resolved, in two
passes (always-on first, then auto-on), each pass excluding modules already
present in the persisted history and modules flagged NO_HISTORY_STACK.
`existsInDb` models dt_history_check_module_exists. -/
def _dev_add_default_modules (iop : List Module) (existsInDb : Nat → Bool) : List Module :=
  (iop.filter (fun m => !existsInDb m.so && m.flags.default_enabled
                        && m.flags.hide_enable_button && !m.flags.no_history_stack))
  ++ (iop.filter (fun m => !existsInDb m.so && m.flags.default_enabled
                           && !m.flags.hide_enable_button && !m.flags.no_history_stack))

/-- The image-cache record consulted by the preset resolver: the image id
and the two preset flags of the image row (DT_IMAGE_AUTO_PRESETS_APPLIED,
DT_IMAGE_NO_LEGACY_PRESETS). -/
structure DtImage where
  id : Int := 1
  auto_presets_applied : Bool := false
  no_legacy_presets : Bool := false
deriving DecidableEq, Repr

/-- Outcome of one run of the preset resolver: the updated image record,
whether the auto-applied-preset insertion into the transient history ran,
and the boolean the function returns (first run). -/
structure AutoPresetsResult where
  image : DtImage
  presets_inserted : Bool
  first_run : Bool
deriving DecidableEq, Repr

/-- _dev_auto_apply_presets (develop.c lines 1654-1926), projected onto
the preset-application decision: with an invalid image id nothing happens;
when DT_IMAGE_AUTO_PRESETS_APPLIED is already set the resolver returns
FALSE without inserting presets (the white-balance recovery path of the
early-exit branch inserts a default module, not a preset); otherwise the
preset query runs against the transient history and both image flags are
set before release. -/
def _dev_auto_apply_presets (img : DtImage) : AutoPresetsResult :=
  if ¬dt_is_valid_imgid img.id then ⟨img, false, false⟩
  else
    let run := ¬img.auto_presets_applied
    if ¬run ∨ ¬dt_is_valid_imgid img.id then ⟨img, false, false⟩
    else ⟨{ img with auto_presets_applied := true, no_legacy_presets := true }, true, true⟩

/-- The image record after n successive read_history calls (each call runs
the preset resolver once on the stored record). -/
def autoApplyIter (img : DtImage) : Nat → DtImage
  | 0 => img
  | n + 1 => (_dev_auto_apply_presets (autoApplyIter img n)).image

/-- Whether the (n+1)-st read_history call inserted auto-applied presets. -/
def autoApplyInsertedAt (img : DtImage) (n : Nat) : Bool :=
  (_dev_auto_apply_presets (autoApplyIter img n)).presets_inserted

/-- The polling loop of dt_dev_wait_hash (develop.c lines 3267-3287): at
each iteration the shutdown atomic is read first (TRUE stops the wait),
then the consumer hash is probed under the optional lock and compared with
the recomputed pipeline hash; `probe` and `computed` give those two values
at each iteration, and the remaining iteration count is the fuel. -/
def waitHashLoop (shutdown : Nat → Bool) (probe computed : Nat → Nat) :
    Nat → Nat → Bool
  | 0, _ => false
  | fuel + 1, n =>
      if shutdown n then true
      else if probe n == computed n then true
      else waitHashLoop shutdown probe computed fuel (n + 1)

/-- dt_dev_wait_hash (develop.c lines 3246-3290): a non-positive
configured iteration count omits synchronization (returns TRUE at once);
otherwise poll up to nloop times. -/
def dt_dev_wait_hash (nloop : Int) (shutdown : Nat → Bool)
    (probe computed : Nat → Nat) : Bool :=
  if nloop ≤ 0 then true
  else waitHashLoop shutdown probe computed nloop.toNat 0

/-- Result of dt_dev_sync_pixelpipe_hash: the returned boolean and whether
the reprocess side-effect (dt_control_queue_redraw_center) was issued. -/
structure SyncResult where
  ok : Bool
  redraw : Bool
deriving DecidableEq, Repr

/-- dt_dev_sync_pixelpipe_hash (develop.c lines 3292-3314): wait for
matching hashes; on timeout return TRUE with a queued redraw when the
change bitset holds TOP_CHANGED, REMOVE or SYNCH, and FALSE otherwise. -/
def dt_dev_sync_pixelpipe_hash (nloop : Int) (shutdown : Nat → Bool)
    (probe computed : Nat → Nat) (changed : PipeFlags) : SyncResult :=
  if dt_dev_wait_hash nloop shutdown probe computed then ⟨true, false⟩
  else if changed.top_changed || changed.remove || changed.synch then ⟨true, true⟩
  else ⟨false, false⟩

/-- The environment of one render-job run: `gui_leaving` sampled at the
successive checkpoints of the job (index 0 is the check on entry, index t
the check opening loop iteration t), buffer availability, and the
per-iteration outcomes of dt_dev_pixelpipe_process and the flags it
consults on interruption. -/
structure RenderEnv where
  gui_leaving : Nat → Bool
  buf_ok : Bool := true
  gui_attached : Bool := true
  widget_ok : Bool := true
  interrupted : Nat → Bool := fun _ => false
  force_reload_at : Nat → Bool := fun _ => false
  loading_or_changed_at : Nat → Bool := fun _ => false
  changed_after : Nat → Bool := fun _ => false

/-- The status words and back-buffer bookkeeping a render job writes.
`backbuf_count` counts published back-buffers: it increments exactly at
the success exit that also publishes VALID. -/
structure RenderState where
  image_status : PipeStatus := PipeStatus.dirty
  preview_status : PipeStatus := PipeStatus.dirty
  preview2_status : PipeStatus := PipeStatus.dirty
  image_invalid_cnt : Nat := 0
  image_loading : Bool := false
  backbuf_count : Nat := 0
deriving DecidableEq, Repr

/-- The restart loop of dt_dev_process_image_job (develop.c lines
594-660): each iteration re-checks gui_leaving first; an interrupted
process run exits INVALID when a forced reload is pending and restarts
otherwise; a successful run restarts once more if the change bitset was
raised meanwhile, else publishes the back-buffer and VALID.  The result
carries the final state and the number of gui_leaving samples consumed;
none models exhaustion of the restart fuel. -/
def imageJobLoop (env : RenderEnv) :
    Nat → Nat → RenderState → Option (RenderState × Nat)
  | 0, _, _ => none
  | fuel + 1, t, st =>
      if env.gui_leaving t then
        some ({ st with image_status := PipeStatus.invalid }, t + 1)
      else if env.interrupted t then
        if env.force_reload_at t then
          some ({ st with image_status := PipeStatus.invalid }, t + 1)
        else imageJobLoop env fuel (t + 1) st
      else if env.changed_after t then imageJobLoop env fuel (t + 1) st
      else
        some ({ st with image_status := PipeStatus.valid
                      , image_loading := false
                      , image_invalid_cnt := 0
                      , backbuf_count := st.backbuf_count + 1 }, t + 1)

/-- dt_dev_process_image_job (develop.c lines 535-678): the gui_leaving
check on entry returns with every status untouched; a missing raw sets
DIRTY and bumps the invalid counter; the load branch marks the other
pipelines dirty; then the restart loop runs. -/
def dt_dev_process_image_job (env : RenderEnv) (fuel : Nat) (st : RenderState) :
    Option (RenderState × Nat) :=
  if env.gui_leaving 0 then some (st, 1)
  else
    let st := { st with image_status := PipeStatus.running }
    if !env.buf_ok then
      some ({ st with image_status := PipeStatus.dirty
                    , image_invalid_cnt := st.image_invalid_cnt + 1 }, 1)
    else
      let st := if st.image_loading && env.gui_attached then
                  { st with preview_status := PipeStatus.dirty
                          , preview2_status := PipeStatus.dirty }
                else st
      imageJobLoop env fuel 1 st

/-- The restart loop of dt_dev_process_preview_job (develop.c lines
334-366): each iteration re-checks gui_leaving first; an interrupted run
exits INVALID when the preview is loading or its input changed and
restarts otherwise; success publishes the back-buffer and VALID. -/
def previewJobLoop (env : RenderEnv) :
    Nat → Nat → RenderState → Option (RenderState × Nat)
  | 0, _, _ => none
  | fuel + 1, t, st =>
      if env.gui_leaving t then
        some ({ st with preview_status := PipeStatus.invalid }, t + 1)
      else if env.interrupted t then
        if env.loading_or_changed_at t then
          some ({ st with preview_status := PipeStatus.invalid }, t + 1)
        else previewJobLoop env fuel (t + 1) st
      else
        some ({ st with preview_status := PipeStatus.valid
                      , backbuf_count := st.backbuf_count + 1 }, t + 1)

/-- dt_dev_process_preview_job (develop.c lines 278-392): return while the
raw is still loading; the gui_leaving check on entry returns with the
status untouched; a missing mipmap sets DIRTY; then the restart loop. -/
def dt_dev_process_preview_job (env : RenderEnv) (fuel : Nat) (st : RenderState) :
    Option (RenderState × Nat) :=
  if st.image_loading then some (st, 0)
  else if env.gui_leaving 0 then some (st, 1)
  else
    let st := { st with preview_status := PipeStatus.running }
    if !env.buf_ok then some ({ st with preview_status := PipeStatus.dirty }, 1)
    else previewJobLoop env fuel 1 st

/-- The restart loop of dt_dev_process_preview2_job (develop.c lines
455-521), identical in shape to the preview loop on the secondary-window
pipeline. -/
def preview2JobLoop (env : RenderEnv) :
    Nat → Nat → RenderState → Option (RenderState × Nat)
  | 0, _, _ => none
  | fuel + 1, t, st =>
      if env.gui_leaving t then
        some ({ st with preview2_status := PipeStatus.invalid }, t + 1)
      else if env.interrupted t then
        if env.loading_or_changed_at t then
          some ({ st with preview2_status := PipeStatus.invalid }, t + 1)
        else preview2JobLoop env fuel (t + 1) st
      else
        some ({ st with preview2_status := PipeStatus.valid
                      , backbuf_count := st.backbuf_count + 1 }, t + 1)

/-- dt_dev_process_preview2_job (develop.c lines 394-533): return while
the raw is loading or the second window is absent; the gui_leaving check
on entry returns with the status untouched; a missing buffer sets DIRTY;
then the restart loop. -/
def dt_dev_process_preview2_job (env : RenderEnv) (fuel : Nat) (st : RenderState) :
    Option (RenderState × Nat) :=
  if st.image_loading then some (st, 0)
  else if !env.widget_ok then some (st, 0)
  else if env.gui_leaving 0 then some (st, 1)
  else
    let st := { st with preview2_status := PipeStatus.running }
    if !env.buf_ok then some ({ st with preview2_status := PipeStatus.dirty }, 1)
    else preview2JobLoop env fuel 1 st

/-- snprintf("%%d", p): the decimal rendering of an instance number,
written out as its base-10 digit characters (most significant first). -/
def decimalName (n : Nat) : String :=
  String.mk ((Nat.digits 10 n).reverse.map Nat.digitChar)

/-- The multi-name search of dt_dev_module_duplicate_ext (develop.c lines
2915-2940): starting from the new instance-priority, take the first
decimal name that no existing instance of the operation carries.  The C
do-loop is unbounded; it terminates because only finitely many names
exist, and a fuel of names.length + 1 provably suffices. -/
def freeNameLoop (names : List String) : Nat → Nat → Nat
  | p, 0 => p
  | p, fuel + 1 =>
      if names.contains (decimalName p) then freeNameLoop names (p + 1) fuel else p

/-- dt_ioppr_insert_module_instance.  Modelled from the spec: the new
instance's rank is inserted immediately after the base instance, shifting
later ranks as needed (spec section 4.3); the function itself lives in the
iop-order component outside develop.c. -/
def dt_ioppr_insert_module_instance (iop : List Module) (base newmod : Module) :
    List Module × Module :=
  (iop.map (fun m => if base.iop_order < m.iop_order
                     then { m with iop_order := m.iop_order + 1 } else m),
   { newmod with iop_order := base.iop_order + 1 })

/-- dt_dev_module_duplicate_ext (develop.c lines 2884-2959): create a new
instance of the base module's operation, give it an instance-priority one
above the maximum among existing instances of that operation, insert its
ordering rank after the base, pick a fresh decimal multi-name not used by
any existing instance, and insert the module into the rank-sorted module
list.  The trailing dt_ioppr_move_iop_after call is subsumed by the
modelled rank insertion. -/
def dt_dev_module_duplicate_ext (dev : Dev) (baseMid freshMid : Nat) : Dev :=
  let base := getModuleD dev.iop baseMid
  let pmax := dev.iop.foldl
    (fun acc x => if x.instance_key = base.instance_key
                  then max acc x.multi_priority else acc) 0
  let prio := pmax + 1
  let newmod0 : Module :=
    loadNewModule base freshMid prio 0 "" false
  let inserted := dt_ioppr_insert_module_instance dev.iop base newmod0
  let names := (dev.iop.filter (fun x => x.instance_key = base.instance_key)).map
    (fun x => x.multi_name)
  let pname := freeNameLoop names prio (names.length + 1)
  let newmod := { inserted.2 with multi_priority := prio
                                , multi_name := decimalName pname
                                , multi_name_hand_edited := false }
  { dev with iop := inserted.1.orderedInsert (fun a b => a.iop_order ≤ b.iop_order) newmod }

/-- Concrete module instance for the C1 and C2 witnesses. -/
def c1m0 : Module :=
  { mid := 1, so := 10, instance_key := 10, params_size := 2, params := [5, 6] }

/-- Concrete tail history entry for the C1 witness. -/
def c1e0 : HistItem :=
  { mid := 1, op_so := 10, focus_hash := 7, enabled := false, params := [5, 6] }

/-- Concrete develop state with one entry, cursor at the top. -/
def c1devA : Dev :=
  { iop := [c1m0], history := [c1e0], history_end := 1, focus_hash := 7 }

/-- Concrete develop state with an empty history. -/
def c1devB : Dev :=
  { iop := [c1m0] }

/-- The keep-condition of the redo-tail removal loop, as the code computes
it: the entry is deleted when its module is neither hide_enable_button nor
default_enabled, or when an earlier entry of the same operation lies below
history_end; it is kept otherwise. -/
def keepInRedoTail (iop : List Module) (active : List HistItem) (h : HistItem) : Bool :=
  let m := getModuleD iop h.mid
  let earlier_entry := active.any (fun p => (getModuleD iop p.mid).so == m.so)
  !((!m.flags.hide_enable_button && !m.flags.default_enabled) || earlier_entry)

/-- Always-on module (DEFAULT_ENABLED, enable button visible) for the C2
counterexample. -/
def c2mA : Module :=
  { mid := 1, so := 10, instance_key := 10, flags := { default_enabled := true } }

/-- Active history entry of the always-on module. -/
def c2e0 : HistItem := { mid := 1, op_so := 10 }

/-- Redo-tail history entry of the same always-on module. -/
def c2e1 : HistItem := { mid := 1, op_so := 10, num := 1 }

/-- Develop state whose redo tail holds an entry that is both always-on in
the claim's sense (DEFAULT_ENABLED and not HIDE_ENABLE_BUTTON) and a
duplicate of an earlier occurrence. -/
def c2dev : Dev :=
  { iop := [c2mA], history := [c2e0, c2e1], history_end := 1 }

/-- Two develop states agree on every field the autosave policy reads or
writes. -/
@[reducible]
def saveViewEq (d d' : Dev) : Prop :=
  d.autosaving = d'.autosaving ∧ d.last_save = d'.last_save
  ∧ d.image_loading = d'.image_loading ∧ d.requested_id = d'.requested_id
  ∧ d.image_id = d'.image_id ∧ d.persist_count = d'.persist_count
  ∧ d.slow_drive_notice = d'.slow_drive_notice

/-- Develop state at which the claim as stated decides to persist but the
code does not: the elapsed time since the last save equals the configured
delay exactly. -/
def c7dev : Dev :=
  { iop := [], autosaving := true, last_save := 0, image_loading := false
  , requested_id := 1, image_id := 1 }

/-- Shutdown raised from the start of the wait. -/
def c8shutdown : Nat → Bool := fun _ => true

/-- The consumer's expected hash: constantly 0, never matching. -/
def c8probe : Nat → Nat := fun _ => 0

/-- The recomputed pipeline hash: constantly 1. -/
def c8computed : Nat → Nat := fun _ => 1

/-- Render environment with gui_leaving raised at every checkpoint. -/
def c9envL : RenderEnv := { gui_leaving := fun _ => true }

/-- Render environment with gui_leaving never raised and no interruption. -/
def c9env : RenderEnv := { gui_leaving := fun _ => false }

/-- Initial render state: all pipelines dirty, nothing published. -/
def c9st : RenderState := {}

/-- The state an undisturbed full-image run produces. -/
def c9resI : RenderState := { image_status := PipeStatus.valid, backbuf_count := 1 }

/-- The state an undisturbed preview run produces. -/
def c9resP : RenderState := { preview_status := PipeStatus.valid, backbuf_count := 1 }

/-- The state an undisturbed secondary-window run produces. -/
def c9resP2 : RenderState := { preview2_status := PipeStatus.valid, backbuf_count := 1 }

/-- Module for the C3 witness: default parameters distinct from the replayed
entry's parameters. -/
def c3mod : Module := { mid := 1, so := 10, default_params := [7] }

/-- History entry replayed by the C3 witness. -/
def c3hist : HistItem := { mid := 1, op_so := 10, enabled := true, params := [9] }

/-- Develop state for the C3 witness: one module, one history entry. -/
def c3dev : Dev := { iop := [c3mod], history := [c3hist], history_end := 1 }

/-- Base module for the C10 witness. -/
def c10base : Module := { mid := 1, so := 10, instance_key := 10 }

/-- Develop state with a single instance to duplicate. -/
def c10dev : Dev := { iop := [c10base] }

/-- Spec P2 for a single history entry against a module list: an entry
whose module is always-on (DEFAULT_ENABLED with HIDE_ENABLE_BUTTON) is
enabled. -/
def entryAlwaysOn (iop : List Module) (e : HistItem) : Prop :=
  ((getModuleD iop e.mid).flags.default_enabled
    && (getModuleD iop e.mid).flags.hide_enable_button) = true → e.enabled = true

instance entryAlwaysOn.dec (iop : List Module) (e : HistItem) :
    Decidable (entryAlwaysOn iop e) :=
  decidable_of_iff
    (((getModuleD iop e.mid).flags.default_enabled
      && (getModuleD iop e.mid).flags.hide_enable_button) = true → e.enabled = true)
    Iff.rfl

/-- The module-side counterpart of spec P2: a live always-on module is
enabled. -/
def modAlwaysOn (iop : List Module) : Prop :=
  ∀ m ∈ iop, (m.flags.default_enabled && m.flags.hide_enable_button) = true → m.enabled = true

instance modAlwaysOn.dec (iop : List Module) : Decidable (modAlwaysOn iop) :=
  decidable_of_iff
    (∀ m ∈ iop, (m.flags.default_enabled && m.flags.hide_enable_button) = true
      → m.enabled = true)
    Iff.rfl

/-- Always-on module (DEFAULT_ENABLED with hidden enable button) for the
C5 and C6 witnesses. -/
def c5mod : Module :=
  { mid := 1, so := 10, enabled := true
  , flags := { default_enabled := true, hide_enable_button := true } }

/-- Enabled history entry of the always-on module. -/
def c5e : HistItem := { mid := 1, op_so := 10, enabled := true }

/-- Develop state satisfying the always-on invariant. -/
def c5dev : Dev := { iop := [c5mod], history := [c5e], history_end := 1 }

/-- Read-loop state over the same module list. -/
def c5st : ReadState := { iop := [c5mod], history := [c5e] }

/-- A persisted row of the always-on operation whose stored enabled flag
is off. -/
def c5row : DbRow := { module_name := some 10 }

/-- Default external oracles for the read loop. -/
def c5env : ReadEnv := {}

/-! ### Theorems -/

theorem findModule_map (iop : List Module) (g : Module → Module)
    (hg : ∀ x, (g x).mid = x.mid) (k : Nat) :
    findModule (iop.map g) k = (findModule iop k).map g := by
  induction iop with
  | nil => rfl
  | cons a l ih =>
      by_cases h : a.mid = k
      · have hp : ((g a).mid == k) = true := by simp [hg a, h]
        have hp' : (a.mid == k) = true := by simp [h]
        simp [findModule, List.find?_cons_of_pos, hp, hp']
      · have hp : ((g a).mid == k) = false := by simp [hg a, h]
        have hp' : (a.mid == k) = false := by simp [h]
        simpa [findModule, List.find?_cons_of_neg, hp, hp'] using ih

theorem findModule_some_mid (iop : List Module) (k : Nat) (m : Module)
    (h : findModule iop k = some m) : m.mid = k := by
  have := List.find?_some h
  simpa using this

theorem setEnabled_mid (mid : Nat) (x : Module) :
    (if x.mid = mid then { x with enabled := true } else x).mid = x.mid := by
  by_cases h : x.mid = mid <;> simp [h]

theorem setWriteHint_mid (mid : Nat) (x : Module) :
    (if x.mid = mid then { x with write_input_hint := true } else x).mid = x.mid := by
  by_cases h : x.mid = mid <;> simp [h]

theorem findModule_setEnabled (iop : List Module) (mid : Nat) (m : Module)
    (h : findModule iop mid = some m) :
    findModule (setEnabled iop mid) mid = some { m with enabled := true } := by
  unfold setEnabled
  rw [findModule_map _ _ (setEnabled_mid mid) mid, h]
  have : m.mid = mid := findModule_some_mid _ _ _ h
  simp [this]

theorem findModule_setWriteHint (iop : List Module) (mid : Nat) (m : Module)
    (h : findModule iop mid = some m) :
    findModule (setWriteHint iop mid) mid = some { m with write_input_hint := true } := by
  unfold setWriteHint
  rw [findModule_map _ _ (setWriteHint_mid mid) mid, h]
  have : m.mid = mid := findModule_some_mid _ _ _ h
  simp [this]

theorem truncateRedoTail_eq_self (dev : Dev) (hlen : dev.history_end = dev.history.length) :
    truncateRedoTail dev = dev := by
  unfold truncateRedoTail
  simp [hlen, truncLoop]
  rw [← hlen]

theorem getModuleD_of_findModule {iop : List Module} {k : Nat} {m : Module}
    (h : findModule iop k = some m) : getModuleD iop k = m := by
  unfold getModuleD
  rw [h]
  rfl

theorem concat_getElem_length {α : Type} (l : List α) (a : α) :
    (l ++ [a])[l.length]? = some a := by
  induction l with
  | nil => rfl
  | cons x xs ih => simp [ih]

theorem concat_set_length {α : Type} (l : List α) (a b : α) :
    (l ++ [a]).set l.length b = l ++ [b] := by
  induction l with
  | nil => rfl
  | cons x xs ih => simp [List.set, ih]

theorem auto_save_frame (d : Dev) (u n s : ℚ) :
    (_dev_auto_save d u n s).history = d.history
    ∧ (_dev_auto_save d u n s).history_end = d.history_end
    ∧ (_dev_auto_save d u n s).iop = d.iop
    ∧ (_dev_auto_save d u n s).pipe_changed = d.pipe_changed
    ∧ (_dev_auto_save d u n s).preview_pipe_changed = d.preview_pipe_changed
    ∧ (_dev_auto_save d u n s).preview2_pipe_changed = d.preview2_pipe_changed
    ∧ (_dev_auto_save d u n s).focus_hash = d.focus_hash := by
  simp only [_dev_auto_save]
  split
  · split
    · exact ⟨rfl, rfl, rfl, rfl, rfl, rfl, rfl⟩
    · exact ⟨rfl, rfl, rfl, rfl, rfl, rfl, rfl⟩
  · exact ⟨rfl, rfl, rfl, rfl, rfl, rfl, rfl⟩

theorem pushCond_false_of_same (dev1 : Dev) (mid : Nat) (m1 : Module) (tl : HistItem)
    (include_masks : Bool)
    (hfind1 : findModule dev1.iop mid = some m1)
    (hmid : tl.mid = mid)
    (hrep : tl.focus_hash = dev1.focus_hash ∨ (include_masks = false ∧ tl.params = m1.params)) :
    pushCond dev1 m1 false include_masks (some tl) = false := by
  have hm1 : m1.mid = mid := findModule_some_mid _ _ _ hfind1
  have hlookup : getModuleD dev1.iop tl.mid = m1 := by
    rw [hmid]
    exact getModuleD_of_findModule hfind1
  simp only [pushCond, hlookup]
  rcases hrep with h | h
  · simp [hmid, hm1, h]
  · simp [hmid, hm1, h.1, h.2]

theorem replaceTop_concat (dev1 : Dev) (m1 : Module) (include_masks : Bool)
    (hs : List HistItem) (tl : HistItem)
    (hhist1 : dev1.history = hs ++ [tl])
    (hlen1 : dev1.history_end = dev1.history.length) :
    replaceTopOfHistory dev1 m1 include_masks
      = hs ++ [replaceEntry dev1 m1 include_masks tl] := by
  unfold replaceTopOfHistory
  have hE : dev1.history_end = hs.length + 1 := by
    rw [hlen1, hhist1]
    simp
  rw [hE, hhist1]
  simp [concat_getElem_length, concat_set_length]

theorem afterEnable_replace (dev1 : Dev) (mid : Nat) (m1 : Module)
    (hs : List HistItem) (tl : HistItem) (include_masks : Bool) (u n s : ℚ)
    (hfind1 : findModule dev1.iop mid = some m1)
    (hhist1 : dev1.history = hs ++ [tl])
    (hlen1 : dev1.history_end = dev1.history.length)
    (hpc : pushCond dev1 m1 false include_masks (some tl) = false) :
    (addItemAfterEnable dev1 mid (some tl) false false include_masks u n s).history
        = hs ++ [replaceEntry dev1 m1 include_masks tl]
    ∧ (addItemAfterEnable dev1 mid (some tl) false false include_masks u n s).history_end
        = dev1.history_end
    ∧ (addItemAfterEnable dev1 mid (some tl) false false include_masks u n s).pipe_changed.top_changed
        = true
    ∧ (addItemAfterEnable dev1 mid (some tl) false false include_masks u n s).preview_pipe_changed.top_changed
        = true
    ∧ (addItemAfterEnable dev1 mid (some tl) false false include_masks u n s).preview2_pipe_changed.top_changed
        = true
    ∧ (addItemAfterEnable dev1 mid (some tl) false false include_masks u n s).focus_hash
        = dev1.focus_hash
    ∧ ∃ m2, findModule (addItemAfterEnable dev1 mid (some tl) false false include_masks u n s).iop mid
              = some m2 ∧ m2.params = m1.params ∧ m2.params_size = m1.params_size := by
  have hget : getModuleD dev1.iop mid = m1 := getModuleD_of_findModule hfind1
  have hrt := replaceTop_concat dev1 m1 include_masks hs tl hhist1 hlen1
  simp only [addItemAfterEnable, hget, hpc, Bool.false_eq_true, if_false, hrt,
    Bool.not_false, Bool.and_true]
  set dev2 : Dev :=
    { dev1 with history := hs ++ [replaceEntry dev1 m1 include_masks tl]
              , pipe_changed := dev1.pipe_changed.orTop
              , preview_pipe_changed := dev1.preview_pipe_changed.orTop
              , preview2_pipe_changed := dev1.preview2_pipe_changed.orTop } with hdev2
  set dev3 : Dev := if m1.enabled then { dev2 with iop := setWriteHint dev2.iop mid } else dev2
    with hdev3
  have h3hist : dev3.history = hs ++ [replaceEntry dev1 m1 include_masks tl] := by
    rw [hdev3]
    split <;> simp [hdev2]
  have h3end : dev3.history_end = dev1.history_end := by
    rw [hdev3]
    split <;> simp [hdev2]
  have h3top : dev3.pipe_changed.top_changed = true := by
    rw [hdev3]
    split <;> simp [hdev2, PipeFlags.orTop]
  have h3ptop : dev3.preview_pipe_changed.top_changed = true := by
    rw [hdev3]
    split <;> simp [hdev2, PipeFlags.orTop]
  have h3p2top : dev3.preview2_pipe_changed.top_changed = true := by
    rw [hdev3]
    split <;> simp [hdev2, PipeFlags.orTop]
  have h3focus : dev3.focus_hash = dev1.focus_hash := by
    rw [hdev3]
    split <;> simp [hdev2]
  have h3find : ∃ m2, findModule dev3.iop mid = some m2
      ∧ m2.params = m1.params ∧ m2.params_size = m1.params_size := by
    rw [hdev3]
    split
    · refine ⟨{ m1 with write_input_hint := true }, ?_, rfl, rfl⟩
      have : findModule dev2.iop mid = some m1 := by
        simp [hdev2]
        exact hfind1
      simpa [hdev2] using findModule_setWriteHint dev2.iop mid m1 this
    · exact ⟨m1, by simp [hdev2]; exact hfind1, rfl, rfl⟩
  have hframe := auto_save_frame dev3 u n s
  by_cases ha : dev3.autosaving
  · simp only [ha, if_true]
    exact ⟨hframe.1.trans h3hist, hframe.2.1.trans h3end,
      by rw [hframe.2.2.2.1]; exact h3top,
      by rw [hframe.2.2.2.2.1]; exact h3ptop,
      by rw [hframe.2.2.2.2.2.1]; exact h3p2top,
      hframe.2.2.2.2.2.2.trans h3focus,
      by rw [hframe.2.2.1]; exact h3find⟩
  · simp only [ha, if_false]
    exact ⟨h3hist, h3end, h3top, h3ptop, h3p2top, h3focus, h3find⟩

theorem afterEnable_push (dev1 : Dev) (mid : Nat) (m1 : Module)
    (tail : Option HistItem) (new_item include_masks : Bool) (u n s : ℚ)
    (hfind1 : findModule dev1.iop mid = some m1)
    (hpc : pushCond dev1 m1 new_item include_masks tail = true) :
    (addItemAfterEnable dev1 mid tail new_item false include_masks u n s).history
        = dev1.history ++ [snapshotEntry dev1 m1 include_masks]
    ∧ (addItemAfterEnable dev1 mid tail new_item false include_masks u n s).history_end
        = dev1.history_end + 1
    ∧ (addItemAfterEnable dev1 mid tail new_item false include_masks u n s).pipe_changed.synch
        = true
    ∧ (addItemAfterEnable dev1 mid tail new_item false include_masks u n s).preview_pipe_changed.synch
        = true
    ∧ (addItemAfterEnable dev1 mid tail new_item false include_masks u n s).preview2_pipe_changed.synch
        = true
    ∧ (addItemAfterEnable dev1 mid tail new_item false include_masks u n s).focus_hash
        = dev1.focus_hash
    ∧ ∃ m2, findModule (addItemAfterEnable dev1 mid tail new_item false include_masks u n s).iop mid
              = some m2 ∧ m2.params = m1.params ∧ m2.params_size = m1.params_size := by
  have hget : getModuleD dev1.iop mid = m1 := getModuleD_of_findModule hfind1
  simp only [addItemAfterEnable, hget, hpc, if_true, Bool.false_eq_true, if_false,
    Bool.not_false, Bool.and_true]
  set dev2 : Dev :=
    { dev1 with history_end := dev1.history_end + 1
              , history := dev1.history ++ [snapshotEntry dev1 m1 include_masks]
              , pipe_changed := dev1.pipe_changed.orSynch
              , preview_pipe_changed := dev1.preview_pipe_changed.orSynch
              , preview2_pipe_changed := dev1.preview2_pipe_changed.orSynch } with hdev2
  set dev3 : Dev := if m1.enabled then { dev2 with iop := setWriteHint dev2.iop mid } else dev2
    with hdev3
  have h3hist : dev3.history = dev1.history ++ [snapshotEntry dev1 m1 include_masks] := by
    rw [hdev3]
    split <;> simp [hdev2]
  have h3end : dev3.history_end = dev1.history_end + 1 := by
    rw [hdev3]
    split <;> simp [hdev2]
  have h3top : dev3.pipe_changed.synch = true := by
    rw [hdev3]
    split <;> simp [hdev2, PipeFlags.orSynch]
  have h3ptop : dev3.preview_pipe_changed.synch = true := by
    rw [hdev3]
    split <;> simp [hdev2, PipeFlags.orSynch]
  have h3p2top : dev3.preview2_pipe_changed.synch = true := by
    rw [hdev3]
    split <;> simp [hdev2, PipeFlags.orSynch]
  have h3focus : dev3.focus_hash = dev1.focus_hash := by
    rw [hdev3]
    split <;> simp [hdev2]
  have h3find : ∃ m2, findModule dev3.iop mid = some m2
      ∧ m2.params = m1.params ∧ m2.params_size = m1.params_size := by
    rw [hdev3]
    split
    · refine ⟨{ m1 with write_input_hint := true }, ?_, rfl, rfl⟩
      have : findModule dev2.iop mid = some m1 := by
        simp [hdev2]
        exact hfind1
      simpa [hdev2] using findModule_setWriteHint dev2.iop mid m1 this
    · exact ⟨m1, by simp [hdev2]; exact hfind1, rfl, rfl⟩
  have hframe := auto_save_frame dev3 u n s
  by_cases ha : dev3.autosaving
  · simp only [ha, if_true]
    exact ⟨hframe.1.trans h3hist, hframe.2.1.trans h3end,
      by rw [hframe.2.2.2.1]; exact h3top,
      by rw [hframe.2.2.2.2.1]; exact h3ptop,
      by rw [hframe.2.2.2.2.2.1]; exact h3p2top,
      hframe.2.2.2.2.2.2.trans h3focus,
      by rw [hframe.2.2.1]; exact h3find⟩
  · simp only [ha, if_false]
    exact ⟨h3hist, h3end, h3top, h3ptop, h3p2top, h3focus, h3find⟩

theorem tail_lookup_some (dev : Dev) (hs : List HistItem) (tl : HistItem)
    (hhist : dev.history = hs ++ [tl]) (hlen : dev.history_end = dev.history.length) :
    (if dev.history_end = 0 then none else dev.history[dev.history_end - 1]?) = some tl := by
  have hE : dev.history_end = hs.length + 1 := by
    rw [hlen, hhist]
    simp
  rw [hE, hhist]
  simp [concat_getElem_length]

theorem enable_step_find (dev : Dev) (enable : Bool) (mid : Nat) (m : Module)
    (hfind : findModule dev.iop mid = some m) :
    findModule (if enable then { dev with iop := setEnabled dev.iop mid } else dev).iop mid
      = some (if enable then { m with enabled := true } else m) := by
  cases enable
  · simpa using hfind
  · simpa using findModule_setEnabled _ _ _ hfind

theorem enable_step_frame (dev : Dev) (enable : Bool) (mid : Nat) :
    (if enable then { dev with iop := setEnabled dev.iop mid } else dev).history = dev.history
    ∧ (if enable then { dev with iop := setEnabled dev.iop mid } else dev).history_end
        = dev.history_end
    ∧ (if enable then { dev with iop := setEnabled dev.iop mid } else dev).focus_hash
        = dev.focus_hash := by
  cases enable <;> exact ⟨rfl, rfl, rfl⟩

theorem enable_step_lookup_fields (dev : Dev) (enable : Bool) (mid k : Nat) :
    (getModuleD (if enable then { dev with iop := setEnabled dev.iop mid } else dev).iop k).multi_priority
      = (getModuleD dev.iop k).multi_priority := by
  cases enable
  · rfl
  · simp only [if_true]
    unfold getModuleD setEnabled
    rw [findModule_map _ _ (setEnabled_mid mid) k]
    cases h : findModule dev.iop k with
    | none => rfl
    | some x => by_cases hx : x.mid = mid <;> simp [hx]

theorem add_item_eq_core (dev : Dev) (mid : Nat)
    (enable new_item no_image include_masks : Bool) (u n s : ℚ)
    (hlen : dev.history_end = dev.history.length) :
    _dev_add_history_item_ext dev mid enable new_item no_image include_masks u n s
      = addItemCore dev mid enable new_item no_image include_masks u n s := by
  unfold _dev_add_history_item_ext
  rw [truncateRedoTail_eq_self dev hlen]

theorem pushCond_true_of_new_item (dev1 : Dev) (m1 : Module) (include_masks : Bool)
    (t : Option HistItem) :
    pushCond dev1 m1 true include_masks t = true := by
  cases t <;> simp [pushCond]

theorem pushCond_true_cases (dev1 : Dev) (mid : Nat) (m1 : Module) (tl : HistItem)
    (include_masks : Bool)
    (hfind1 : findModule dev1.iop mid = some m1)
    (hcase : tl.mid ≠ mid
       ∨ (getModuleD dev1.iop tl.mid).multi_priority ≠ m1.multi_priority
       ∨ (dev1.focus_hash ≠ tl.focus_hash ∧ tl.params ≠ m1.params ∧ include_masks = false)) :
    pushCond dev1 m1 false include_masks (some tl) = true := by
  have hm1 : m1.mid = mid := findModule_some_mid _ _ _ hfind1
  by_cases hmid : tl.mid = mid
  · have hlookup : getModuleD dev1.iop tl.mid = m1 := by
      rw [hmid]
      exact getModuleD_of_findModule hfind1
    rcases hcase with h | h | h
    · exact absurd hmid h
    · rw [hlookup] at h
      exact absurd rfl h
    · simp [pushCond, hlookup, h.1, h.2.1, h.2.2]
  · have hne : tl.mid ≠ m1.mid := by
      rw [hm1]
      exact hmid
    simp [pushCond, hne]

theorem C1aux_replace (dev : Dev) (mid : Nat) (m : Module) (hs : List HistItem) (tl : HistItem)
    (enable include_masks : Bool) (u n s : ℚ)
    (hfind : findModule dev.iop mid = some m)
    (hhist : dev.history = hs ++ [tl])
    (hlen : dev.history_end = dev.history.length)
    (hmid : tl.mid = mid)
    (hrep : tl.focus_hash = dev.focus_hash ∨ (include_masks = false ∧ tl.params = m.params)) :
    ∃ e : HistItem,
      (_dev_add_history_item_ext dev mid enable false false include_masks u n s).history
          = hs ++ [e]
      ∧ e.mid = mid
      ∧ e.params = m.params
      ∧ (_dev_add_history_item_ext dev mid enable false false include_masks u n s).history_end
          = dev.history_end
      ∧ (_dev_add_history_item_ext dev mid enable false false include_masks u n s).pipe_changed.top_changed = true
      ∧ (_dev_add_history_item_ext dev mid enable false false include_masks u n s).preview_pipe_changed.top_changed = true
      ∧ (_dev_add_history_item_ext dev mid enable false false include_masks u n s).preview2_pipe_changed.top_changed = true
      ∧ (_dev_add_history_item_ext dev mid enable false false include_masks u n s).focus_hash
          = dev.focus_hash
      ∧ ∃ m2, findModule (_dev_add_history_item_ext dev mid enable false false include_masks u n s).iop mid = some m2
              ∧ m2.params = m.params := by
  rw [add_item_eq_core dev mid enable false false include_masks u n s hlen]
  simp only [addItemCore]
  rw [tail_lookup_some dev hs tl hhist hlen]
  have hfind1 := enable_step_find dev enable mid m hfind
  have hframe := enable_step_frame dev enable mid
  have hm1params : (if enable then { m with enabled := true } else m).params = m.params := by
    cases enable <;> rfl
  have hhist1 : (if enable then { dev with iop := setEnabled dev.iop mid } else dev).history
      = hs ++ [tl] := hframe.1.trans hhist
  have hlen1 : (if enable then { dev with iop := setEnabled dev.iop mid } else dev).history_end
      = (if enable then { dev with iop := setEnabled dev.iop mid } else dev).history.length := by
    rw [hframe.2.1, hframe.1]
    exact hlen
  have hrep1 : tl.focus_hash
        = (if enable then { dev with iop := setEnabled dev.iop mid } else dev).focus_hash
      ∨ (include_masks = false
         ∧ tl.params = (if enable then { m with enabled := true } else m).params) := by
    rcases hrep with h | h
    · exact Or.inl (by rw [hframe.2.2]; exact h)
    · exact Or.inr ⟨h.1, by rw [hm1params]; exact h.2⟩
  have hpc := pushCond_false_of_same _ mid _ tl include_masks hfind1 hmid hrep1
  obtain ⟨hh, he, ht, hpt, hp2t, hf, m2, hfm2, hm2p, _⟩ :=
    afterEnable_replace _ mid _ hs tl include_masks u n s hfind1 hhist1 hlen1 hpc
  refine ⟨_, hh, ?_, ?_, ?_, ht, hpt, hp2t, ?_, m2, hfm2, ?_⟩
  · simp [replaceEntry, hmid]
  · simp [replaceEntry, hm1params]
  · rw [he, hframe.2.1]
  · rw [hf, hframe.2.2]
  · rw [hm2p, hm1params]

theorem C1aux_push (dev : Dev) (mid : Nat) (m : Module)
    (enable new_item include_masks : Bool) (u n s : ℚ)
    (hfind : findModule dev.iop mid = some m)
    (hlen : dev.history_end = dev.history.length)
    (hcase : dev.history = [] ∨ new_item = true
       ∨ ∃ hs tl, dev.history = hs ++ [tl]
            ∧ (tl.mid ≠ mid
               ∨ (getModuleD dev.iop tl.mid).multi_priority ≠ m.multi_priority
               ∨ (dev.focus_hash ≠ tl.focus_hash ∧ tl.params ≠ m.params
                  ∧ include_masks = false))) :
    ∃ e : HistItem,
      (_dev_add_history_item_ext dev mid enable new_item false include_masks u n s).history
          = dev.history ++ [e]
      ∧ e.mid = mid
      ∧ (_dev_add_history_item_ext dev mid enable new_item false include_masks u n s).history_end
          = dev.history_end + 1
      ∧ (_dev_add_history_item_ext dev mid enable new_item false include_masks u n s).pipe_changed.synch = true
      ∧ (_dev_add_history_item_ext dev mid enable new_item false include_masks u n s).preview_pipe_changed.synch = true
      ∧ (_dev_add_history_item_ext dev mid enable new_item false include_masks u n s).preview2_pipe_changed.synch = true := by
  rw [add_item_eq_core dev mid enable new_item false include_masks u n s hlen]
  simp only [addItemCore]
  have hfind1 := enable_step_find dev enable mid m hfind
  have hframe := enable_step_frame dev enable mid
  have hm1mid : (if enable then { m with enabled := true } else m).mid = mid := by
    have := findModule_some_mid _ _ _ hfind
    cases enable <;> simpa using this
  have hm1params : (if enable then { m with enabled := true } else m).params = m.params := by
    cases enable <;> rfl
  have hm1prio : (if enable then { m with enabled := true } else m).multi_priority
      = m.multi_priority := by
    cases enable <;> rfl
  have hmain : ∀ t : Option HistItem,
      pushCond (if enable then { dev with iop := setEnabled dev.iop mid } else dev)
          (if enable then { m with enabled := true } else m) new_item include_masks t = true →
      ∃ e : HistItem,
        (addItemAfterEnable (if enable then { dev with iop := setEnabled dev.iop mid } else dev)
            mid t new_item false include_masks u n s).history = dev.history ++ [e]
        ∧ e.mid = mid
        ∧ (addItemAfterEnable (if enable then { dev with iop := setEnabled dev.iop mid } else dev)
            mid t new_item false include_masks u n s).history_end = dev.history_end + 1
        ∧ (addItemAfterEnable (if enable then { dev with iop := setEnabled dev.iop mid } else dev)
            mid t new_item false include_masks u n s).pipe_changed.synch = true
        ∧ (addItemAfterEnable (if enable then { dev with iop := setEnabled dev.iop mid } else dev)
            mid t new_item false include_masks u n s).preview_pipe_changed.synch = true
        ∧ (addItemAfterEnable (if enable then { dev with iop := setEnabled dev.iop mid } else dev)
            mid t new_item false include_masks u n s).preview2_pipe_changed.synch = true := by
    intro t hpc
    obtain ⟨hh, he, ht, hpt, hp2t, hf, _⟩ :=
      afterEnable_push _ mid _ t new_item include_masks u n s hfind1 hpc
    refine ⟨snapshotEntry (if enable then { dev with iop := setEnabled dev.iop mid } else dev)
             (if enable then { m with enabled := true } else m) include_masks,
           ?_, ?_, ?_, ht, hpt, hp2t⟩
    · rw [hh, hframe.1]
    · simp [snapshotEntry, hm1mid]
    · rw [he, hframe.2.1]
  rcases hcase with hnil | hni | ⟨hs, tl, hhist, hsub⟩
  · have hend0 : dev.history_end = 0 := by
      rw [hlen, hnil]
      rfl
    have htail : (if dev.history_end = 0 then none else dev.history[dev.history_end - 1]?)
        = (none : Option HistItem) := by
      simp [hend0]
    rw [htail]
    exact hmain none rfl
  · subst hni
    exact hmain (if dev.history_end = 0 then none else dev.history[dev.history_end - 1]?)
      (pushCond_true_of_new_item _ _ include_masks _)
  · rw [tail_lookup_some dev hs tl hhist hlen]
    have hsub1 : tl.mid ≠ mid
        ∨ (getModuleD (if enable then { dev with iop := setEnabled dev.iop mid } else dev).iop
              tl.mid).multi_priority
            ≠ (if enable then { m with enabled := true } else m).multi_priority
        ∨ ((if enable then { dev with iop := setEnabled dev.iop mid } else dev).focus_hash
              ≠ tl.focus_hash
           ∧ tl.params ≠ (if enable then { m with enabled := true } else m).params
           ∧ include_masks = false) := by
      rcases hsub with h | h | h
      · exact Or.inl h
      · refine Or.inr (Or.inl ?_)
        rw [enable_step_lookup_fields dev enable mid tl.mid, hm1prio]
        exact h
      · refine Or.inr (Or.inr ⟨?_, ?_, h.2.2⟩)
        · rw [hframe.2.2]
          exact h.1
        · rw [hm1params]
          exact h.2.1
    cases hn : new_item with
    | true =>
        rw [hn] at hmain
        exact hmain (some tl) (pushCond_true_of_new_item _ _ include_masks _)
    | false =>
        rw [hn] at hmain
        exact hmain (some tl)
          (pushCond_true_cases _ mid _ tl include_masks hfind1 hsub1)

theorem C1aux_summary (dev : Dev) (mid : Nat) (m : Module) (enable : Bool) (u n s : ℚ)
    (hfind : findModule dev.iop mid = some m)
    (hlen : dev.history_end = dev.history.length) :
    ∃ (hs1 : List HistItem) (e1 : HistItem) (m2 : Module),
      (_dev_add_history_item_ext dev mid enable false false false u n s).history = hs1 ++ [e1]
      ∧ e1.mid = mid
      ∧ e1.params = m.params
      ∧ (_dev_add_history_item_ext dev mid enable false false false u n s).history_end
          = (_dev_add_history_item_ext dev mid enable false false false u n s).history.length
      ∧ findModule (_dev_add_history_item_ext dev mid enable false false false u n s).iop mid
          = some m2
      ∧ m2.params = m.params := by
  rw [add_item_eq_core dev mid enable false false false u n s hlen]
  simp only [addItemCore]
  have hfind1 := enable_step_find dev enable mid m hfind
  have hframe := enable_step_frame dev enable mid
  have hm1params : (if enable then { m with enabled := true } else m).params = m.params := by
    cases enable <;> rfl
  have hm1mid : (if enable then { m with enabled := true } else m).mid = mid := by
    have := findModule_some_mid _ _ _ hfind
    cases enable <;> simpa using this
  set dev1 := (if enable then { dev with iop := setEnabled dev.iop mid } else dev) with hdev1
  set m1 := (if enable then { m with enabled := true } else m) with hm1
  set tt := (if dev.history_end = 0 then none else dev.history[dev.history_end - 1]?) with htt
  by_cases hp : pushCond dev1 m1 false false tt = true
  · obtain ⟨hh, he, _, _, _, hf, m2, hfm2, hm2p, _⟩ :=
      afterEnable_push dev1 mid m1 tt false false u n s hfind1 hp
    refine ⟨dev1.history, snapshotEntry dev1 m1 false, m2, hh, ?_, ?_, ?_, hfm2, ?_⟩
    · simp [snapshotEntry, hm1mid]
    · simp [snapshotEntry, hm1params]
    · rw [he, hh]
      simp only [List.length_append, List.length_cons, List.length_nil]
      rw [hframe.2.1, hframe.1, hlen]
    · rw [hm2p, hm1params]
  · have hpf : pushCond dev1 m1 false false tt = false := by
      revert hp
      cases pushCond dev1 m1 false false tt <;> simp
    have hne : dev.history ≠ [] := by
      intro h0
      have hend0 : dev.history_end = 0 := by
        rw [hlen, h0]
        rfl
      have : tt = none := by
        rw [htt]
        simp [hend0]
      rw [this] at hpf
      simp [pushCond] at hpf
    have hhist : dev.history = dev.history.dropLast ++ [dev.history.getLast hne] :=
      (List.dropLast_append_getLast hne).symm
    have htt2 : tt = some (dev.history.getLast hne) := by
      rw [htt]
      exact tail_lookup_some dev _ _ hhist hlen
    rw [htt2] at hpf
    have hmid : (dev.history.getLast hne).mid = mid := by
      by_contra hx
      have := pushCond_true_cases dev1 mid m1 (dev.history.getLast hne) false hfind1 (Or.inl hx)
      rw [this] at hpf
      cases hpf
    have hhist1 : dev1.history = dev.history.dropLast ++ [dev.history.getLast hne] :=
      hframe.1.trans hhist
    have hlen1 : dev1.history_end = dev1.history.length := by
      rw [hframe.2.1, hframe.1]
      exact hlen
    rw [htt2]
    obtain ⟨hh, he, _, _, _, hf, m2, hfm2, hm2p, _⟩ :=
      afterEnable_replace dev1 mid m1 _ _ false u n s hfind1 hhist1 hlen1 hpf
    refine ⟨dev.history.dropLast, replaceEntry dev1 m1 false (dev.history.getLast hne), m2,
      hh, ?_, ?_, ?_, hfm2, ?_⟩
    · simp [replaceEntry, hmid]
    · simp [replaceEntry, hm1params]
    · rw [he, hh]
      simp only [List.length_append, List.length_cons, List.length_nil]
      rw [hframe.2.1, hlen, hhist]
      simp
    · rw [hm2p, hm1params]

theorem C1aux_double (dev : Dev) (mid : Nat) (m : Module) (enable : Bool)
    (u n s u' n' s' : ℚ)
    (hfind : findModule dev.iop mid = some m)
    (hlen : dev.history_end = dev.history.length) :
    (_dev_add_history_item_ext (_dev_add_history_item_ext dev mid enable false false false u n s)
        mid enable false false false u' n' s').history.length
      = (_dev_add_history_item_ext dev mid enable false false false u n s).history.length
    ∧ (_dev_add_history_item_ext (_dev_add_history_item_ext dev mid enable false false false u n s)
        mid enable false false false u' n' s').history_end
      = (_dev_add_history_item_ext dev mid enable false false false u n s).history_end
    ∧ (_dev_add_history_item_ext (_dev_add_history_item_ext dev mid enable false false false u n s)
        mid enable false false false u' n' s').pipe_changed.top_changed = true
    ∧ (_dev_add_history_item_ext (_dev_add_history_item_ext dev mid enable false false false u n s)
        mid enable false false false u' n' s').preview_pipe_changed.top_changed = true
    ∧ (_dev_add_history_item_ext (_dev_add_history_item_ext dev mid enable false false false u n s)
        mid enable false false false u' n' s').preview2_pipe_changed.top_changed = true := by
  obtain ⟨hs1, e1, m2, hh, hm, hp, hlen1, hfm, hmp⟩ :=
    C1aux_summary dev mid m enable u n s hfind hlen
  obtain ⟨e, hh2, _, _, hend2, ht, hpt, hp2t, _, _⟩ :=
    C1aux_replace (_dev_add_history_item_ext dev mid enable false false false u n s)
      mid m2 hs1 e1 enable false u' n' s' hfm hh hlen1 hm
      (Or.inr ⟨rfl, hp.trans hmp.symm⟩)
  refine ⟨?_, hend2, ht, hpt, hp2t⟩
  rw [hh2, hh]
  simp

/-- C1: with the cursor at the top of the history, an append
(new_item = false) whose module matches the tail entry (same module object
and instance-priority) with identical parameter bytes, identical mask set
when masks are included, and identical focus hash replaces the tail entry
in place: the history length and history_end are unchanged and every
pipeline change-flag gains TOP_CHANGED.  In the other cases (no tail
entry, new_item requested, different module object or instance-priority,
or a changed focus hash together with a parameter difference) a new entry
is pushed: history_end grows by one and every pipeline change-flag gains
SYNCH.  In particular two successive appends of the same module with
unchanged parameters perform exactly one in-place update the second time. -/
theorem C1_append_coalescing :
    (∀ (dev : Dev) (mid : Nat) (m : Module) (hs : List HistItem) (tl : HistItem)
        (enable include_masks : Bool) (u n s : ℚ),
        findModule dev.iop mid = some m →
        dev.history = hs ++ [tl] →
        dev.history_end = dev.history.length →
        tl.mid = mid →
        tl.focus_hash = dev.focus_hash →
        tl.params = m.params →
        (include_masks = true → tl.forms = some dev.forms) →
        ∃ e : HistItem,
          (_dev_add_history_item_ext dev mid enable false false include_masks u n s).history
              = hs ++ [e]
          ∧ e.mid = mid
          ∧ (_dev_add_history_item_ext dev mid enable false false include_masks u n s).history.length
              = dev.history.length
          ∧ (_dev_add_history_item_ext dev mid enable false false include_masks u n s).history_end
              = dev.history_end
          ∧ (_dev_add_history_item_ext dev mid enable false false include_masks u n s).pipe_changed.top_changed = true
          ∧ (_dev_add_history_item_ext dev mid enable false false include_masks u n s).preview_pipe_changed.top_changed = true
          ∧ (_dev_add_history_item_ext dev mid enable false false include_masks u n s).preview2_pipe_changed.top_changed = true)
    ∧ (∀ (dev : Dev) (mid : Nat) (m : Module) (enable new_item include_masks : Bool)
        (u n s : ℚ),
        findModule dev.iop mid = some m →
        dev.history_end = dev.history.length →
        (dev.history = [] ∨ new_item = true
         ∨ ∃ hs tl, dev.history = hs ++ [tl]
              ∧ (tl.mid ≠ mid
                 ∨ (getModuleD dev.iop tl.mid).multi_priority ≠ m.multi_priority
                 ∨ (dev.focus_hash ≠ tl.focus_hash ∧ tl.params ≠ m.params
                    ∧ include_masks = false))) →
        ∃ e : HistItem,
          (_dev_add_history_item_ext dev mid enable new_item false include_masks u n s).history
              = dev.history ++ [e]
          ∧ e.mid = mid
          ∧ (_dev_add_history_item_ext dev mid enable new_item false include_masks u n s).history_end
              = dev.history_end + 1
          ∧ (_dev_add_history_item_ext dev mid enable new_item false include_masks u n s).pipe_changed.synch = true
          ∧ (_dev_add_history_item_ext dev mid enable new_item false include_masks u n s).preview_pipe_changed.synch = true
          ∧ (_dev_add_history_item_ext dev mid enable new_item false include_masks u n s).preview2_pipe_changed.synch = true)
    ∧ (∀ (dev : Dev) (mid : Nat) (m : Module) (enable : Bool) (u n s u' n' s' : ℚ),
        findModule dev.iop mid = some m →
        dev.history_end = dev.history.length →
        (_dev_add_history_item_ext
            (_dev_add_history_item_ext dev mid enable false false false u n s)
            mid enable false false false u' n' s').history.length
          = (_dev_add_history_item_ext dev mid enable false false false u n s).history.length
        ∧ (_dev_add_history_item_ext
            (_dev_add_history_item_ext dev mid enable false false false u n s)
            mid enable false false false u' n' s').history_end
          = (_dev_add_history_item_ext dev mid enable false false false u n s).history_end
        ∧ (_dev_add_history_item_ext
            (_dev_add_history_item_ext dev mid enable false false false u n s)
            mid enable false false false u' n' s').pipe_changed.top_changed = true
        ∧ (_dev_add_history_item_ext
            (_dev_add_history_item_ext dev mid enable false false false u n s)
            mid enable false false false u' n' s').preview_pipe_changed.top_changed = true
        ∧ (_dev_add_history_item_ext
            (_dev_add_history_item_ext dev mid enable false false false u n s)
            mid enable false false false u' n' s').preview2_pipe_changed.top_changed = true) := by
  refine ⟨?_, ?_, ?_⟩
  · intro dev mid m hs tl enable include_masks u n s hfind hhist hlen hmid hfocus hparams hmask
    obtain ⟨e, h1, h2, _, h4, h5, h6, h7, _, _⟩ :=
      C1aux_replace dev mid m hs tl enable include_masks u n s hfind hhist hlen hmid
        (Or.inl hfocus)
    refine ⟨e, h1, h2, ?_, h4, h5, h6, h7⟩
    rw [h1, hhist]
    simp
  · intro dev mid m enable new_item include_masks u n s hfind hlen hcase
    exact C1aux_push dev mid m enable new_item include_masks u n s hfind hlen hcase
  · intro dev mid m enable u n s u' n' s' hfind hlen
    exact C1aux_double dev mid m enable u n s u' n' s' hfind hlen

/-- Witness for C1: the three parts applied to concrete inputs. -/
theorem C1_append_coalescing_witness :
    (∃ e : HistItem,
      (_dev_add_history_item_ext c1devA 1 false false false false 0 0 0).history = [] ++ [e]
      ∧ e.mid = 1
      ∧ (_dev_add_history_item_ext c1devA 1 false false false false 0 0 0).history.length
          = c1devA.history.length
      ∧ (_dev_add_history_item_ext c1devA 1 false false false false 0 0 0).history_end
          = c1devA.history_end
      ∧ (_dev_add_history_item_ext c1devA 1 false false false false 0 0 0).pipe_changed.top_changed = true
      ∧ (_dev_add_history_item_ext c1devA 1 false false false false 0 0 0).preview_pipe_changed.top_changed = true
      ∧ (_dev_add_history_item_ext c1devA 1 false false false false 0 0 0).preview2_pipe_changed.top_changed = true)
    ∧ (∃ e : HistItem,
      (_dev_add_history_item_ext c1devB 1 true false false false 0 0 0).history
          = c1devB.history ++ [e]
      ∧ e.mid = 1
      ∧ (_dev_add_history_item_ext c1devB 1 true false false false 0 0 0).history_end
          = c1devB.history_end + 1
      ∧ (_dev_add_history_item_ext c1devB 1 true false false false 0 0 0).pipe_changed.synch = true
      ∧ (_dev_add_history_item_ext c1devB 1 true false false false 0 0 0).preview_pipe_changed.synch = true
      ∧ (_dev_add_history_item_ext c1devB 1 true false false false 0 0 0).preview2_pipe_changed.synch = true)
    ∧ ((_dev_add_history_item_ext
          (_dev_add_history_item_ext c1devB 1 true false false false 0 0 0)
          1 true false false false 0 0 0).history.length
        = (_dev_add_history_item_ext c1devB 1 true false false false 0 0 0).history.length
      ∧ (_dev_add_history_item_ext
          (_dev_add_history_item_ext c1devB 1 true false false false 0 0 0)
          1 true false false false 0 0 0).history_end
        = (_dev_add_history_item_ext c1devB 1 true false false false 0 0 0).history_end
      ∧ (_dev_add_history_item_ext
          (_dev_add_history_item_ext c1devB 1 true false false false 0 0 0)
          1 true false false false 0 0 0).pipe_changed.top_changed = true
      ∧ (_dev_add_history_item_ext
          (_dev_add_history_item_ext c1devB 1 true false false false 0 0 0)
          1 true false false false 0 0 0).preview_pipe_changed.top_changed = true
      ∧ (_dev_add_history_item_ext
          (_dev_add_history_item_ext c1devB 1 true false false false 0 0 0)
          1 true false false false 0 0 0).preview2_pipe_changed.top_changed = true) :=
  ⟨C1_append_coalescing.1 c1devA 1 c1m0 [] c1e0 false false 0 0 0 (by decide) rfl rfl rfl rfl
      rfl (fun h => nomatch h),
   C1_append_coalescing.2.1 c1devB 1 c1m0 true false false 0 0 0 (by decide) rfl (Or.inl rfl),
   C1_append_coalescing.2.2 c1devB 1 c1m0 true 0 0 0 0 0 0 (by decide) rfl⟩

theorem truncLoop_spec (iop : List Module) (active : List HistItem) (l : List HistItem) :
    truncLoop iop active l
      = (l.filter (keepInRedoTail iop active), (l.filter (keepInRedoTail iop active)).length) := by
  induction l with
  | nil => rfl
  | cons h rest ih =>
      by_cases hc : ((!(getModuleD iop h.mid).flags.hide_enable_button
            && !(getModuleD iop h.mid).flags.default_enabled)
          || active.any (fun p => (getModuleD iop p.mid).so == (getModuleD iop h.mid).so)) = true
      · have hk : keepInRedoTail iop active h = false := by
          simp only [keepInRedoTail, hc]
          rfl
        simp only [truncLoop, hc, if_true, List.filter_cons, hk, Bool.false_eq_true, if_false,
          ih]
      · have hc' : ((!(getModuleD iop h.mid).flags.hide_enable_button
              && !(getModuleD iop h.mid).flags.default_enabled)
            || active.any (fun p => (getModuleD iop p.mid).so == (getModuleD iop h.mid).so)) = false := by
          revert hc
          cases ((!(getModuleD iop h.mid).flags.hide_enable_button
              && !(getModuleD iop h.mid).flags.default_enabled)
            || active.any (fun p => (getModuleD iop p.mid).so == (getModuleD iop h.mid).so)) <;> simp
        have hk : keepInRedoTail iop active h = true := by
          simp only [keepInRedoTail, hc']
          rfl
        simp only [truncLoop, hc', Bool.false_eq_true, if_false, List.filter_cons, hk, if_true,
          ih, List.length_cons]

/-- Amended C2: before the append, entries at or above history_end are
dropped except those whose module has DEFAULT_ENABLED or
HIDE_ENABLE_BUTTON set and whose operation has no earlier occurrence below
history_end; the cursor then advances by exactly the number of preserved
entries. -/
theorem C2_redo_tail_truncation (dev : Dev)
    (hEnd : dev.history_end ≤ dev.history.length) :
    (truncateRedoTail dev).history
        = dev.history.take dev.history_end
          ++ (dev.history.drop dev.history_end).filter
               (fun h =>
                 ((getModuleD dev.iop h.mid).flags.default_enabled
                  || (getModuleD dev.iop h.mid).flags.hide_enable_button)
                 && !((dev.history.take dev.history_end).any
                        (fun p => (getModuleD dev.iop p.mid).so == (getModuleD dev.iop h.mid).so)))
    ∧ (truncateRedoTail dev).history_end
        = dev.history_end
          + ((dev.history.drop dev.history_end).filter
               (fun h =>
                 ((getModuleD dev.iop h.mid).flags.default_enabled
                  || (getModuleD dev.iop h.mid).flags.hide_enable_button)
                 && !((dev.history.take dev.history_end).any
                        (fun p => (getModuleD dev.iop p.mid).so == (getModuleD dev.iop h.mid).so)))).length := by
  have hfe : ∀ (l : List HistItem),
      l.filter (keepInRedoTail dev.iop (dev.history.take dev.history_end))
        = l.filter (fun h =>
            ((getModuleD dev.iop h.mid).flags.default_enabled
             || (getModuleD dev.iop h.mid).flags.hide_enable_button)
            && !((dev.history.take dev.history_end).any
                   (fun p => (getModuleD dev.iop p.mid).so == (getModuleD dev.iop h.mid).so))) := by
    intro l
    apply List.filter_congr
    intro x _
    simp only [keepInRedoTail]
    cases (getModuleD dev.iop x.mid).flags.default_enabled
      <;> cases (getModuleD dev.iop x.mid).flags.hide_enable_button
      <;> cases (dev.history.take dev.history_end).any
            (fun p => (getModuleD dev.iop p.mid).so == (getModuleD dev.iop x.mid).so)
      <;> rfl
  have hlen2 : (dev.history.take dev.history_end).length = dev.history_end :=
    List.length_take_of_le hEnd
  constructor
  · simp only [truncateRedoTail, truncLoop_spec, hfe]
  · simp only [truncateRedoTail, truncLoop_spec, hfe]
    rw [List.length_append, hlen2]
    have : min dev.history_end
        (dev.history_end
          + ((dev.history.drop dev.history_end).filter
              (fun h =>
                ((getModuleD dev.iop h.mid).flags.default_enabled
                 || (getModuleD dev.iop h.mid).flags.hide_enable_button)
                && !((dev.history.take dev.history_end).any
                       (fun p => (getModuleD dev.iop p.mid).so == (getModuleD dev.iop h.mid).so)))).length)
        = dev.history_end := Nat.min_eq_left (Nat.le_add_right _ _)
    rw [this]

/-- Counterexample to C2 as stated: the redo-tail entry c2e1 belongs to an
always-on operation (DEFAULT_ENABLED without HIDE_ENABLE_BUTTON) and its
operation has a duplicate earlier occurrence below history_end, so the
claim says it is preserved and history_end advanced by one; the code drops
it (the earlier occurrence forces deletion), leaving one entry and the
cursor at 1. -/
theorem C2_counterexample :
    (truncateRedoTail c2dev).history = [c2e0]
    ∧ (truncateRedoTail c2dev).history_end = 1
    ∧ c2mA.flags.default_enabled = true
    ∧ c2mA.flags.hide_enable_button = false
    ∧ (c2dev.history.take c2dev.history_end).any
        (fun p => (getModuleD c2dev.iop p.mid).so == (getModuleD c2dev.iop c2e1.mid).so) = true
    ∧ c2dev.history.drop c2dev.history_end = [c2e1] := by
  decide

/-- Witness for the amended C2 at a concrete input: the same state shows a
kept always-on entry of a fresh operation and the dropped duplicate. -/
theorem C2_redo_tail_truncation_witness :
    c2dev.history_end ≤ c2dev.history.length
    ∧ ((truncateRedoTail c2dev).history
        = c2dev.history.take c2dev.history_end
          ++ (c2dev.history.drop c2dev.history_end).filter
               (fun h =>
                 ((getModuleD c2dev.iop h.mid).flags.default_enabled
                  || (getModuleD c2dev.iop h.mid).flags.hide_enable_button)
                 && !((c2dev.history.take c2dev.history_end).any
                        (fun p => (getModuleD c2dev.iop p.mid).so == (getModuleD c2dev.iop h.mid).so)))) :=
  ⟨by decide, (C2_redo_tail_truncation c2dev (by decide)).1⟩

theorem autoApply_insert_spec (img : DtImage)
    (h : (_dev_auto_apply_presets img).presets_inserted = true) :
    img.auto_presets_applied = false
    ∧ (_dev_auto_apply_presets img).image.auto_presets_applied = true := by
  by_cases hv : dt_is_valid_imgid img.id = true
  · by_cases hf : img.auto_presets_applied = true
    · simp [_dev_auto_apply_presets, hv, hf] at h
    · simp only [Bool.not_eq_true] at hf
      simp [_dev_auto_apply_presets, hv, hf]
  · simp [_dev_auto_apply_presets, hv] at h

theorem autoApply_flag_mono (img : DtImage)
    (h : img.auto_presets_applied = true) :
    (_dev_auto_apply_presets img).image = img
    ∧ (_dev_auto_apply_presets img).presets_inserted = false := by
  by_cases hv : dt_is_valid_imgid img.id = true
  · simp [_dev_auto_apply_presets, hv, h]
  · simp [_dev_auto_apply_presets, hv]

theorem autoApplyIter_mono (img : DtImage) (j k : Nat) (hjk : j ≤ k)
    (h : (autoApplyIter img j).auto_presets_applied = true) :
    (autoApplyIter img k).auto_presets_applied = true := by
  induction k with
  | zero =>
      have : j = 0 := Nat.le_zero.mp hjk
      rw [← this]
      exact h
  | succ k ih =>
      rcases Nat.lt_or_ge j (k + 1) with hlt | hge
      · have hk : (autoApplyIter img k).auto_presets_applied = true :=
          ih (Nat.lt_succ_iff.mp hlt)
        have := autoApply_flag_mono (autoApplyIter img k) hk
        simp only [autoApplyIter, this.1]
        exact hk
      · have : j = k + 1 := Nat.le_antisymm hjk hge
        rw [← this]
        exact h

/-- C4: the preset resolver inserts auto-applied presets only when the
image's AUTO_PRESETS_APPLIED flag is unset and sets the flag in the same
run; with the flag set it leaves the image record untouched and inserts
nothing; hence across any sequence of read_history calls the flag rises
monotonically from false to true and presets are inserted at most once. -/
theorem C4_auto_presets_once :
    (∀ img : DtImage, (_dev_auto_apply_presets img).presets_inserted = true →
        img.auto_presets_applied = false
        ∧ (_dev_auto_apply_presets img).image.auto_presets_applied = true)
    ∧ (∀ img : DtImage, img.auto_presets_applied = true →
        (_dev_auto_apply_presets img).image = img
        ∧ (_dev_auto_apply_presets img).presets_inserted = false)
    ∧ (∀ (img : DtImage) (j k : Nat), j ≤ k →
        (autoApplyIter img j).auto_presets_applied = true →
        (autoApplyIter img k).auto_presets_applied = true)
    ∧ (∀ (img : DtImage) (j k : Nat),
        autoApplyInsertedAt img j = true → autoApplyInsertedAt img k = true → j = k) := by
  refine ⟨autoApply_insert_spec, autoApply_flag_mono, autoApplyIter_mono, ?_⟩
  intro img j k hj hk
  have key : ∀ a b : Nat, a < b → autoApplyInsertedAt img a = true →
      autoApplyInsertedAt img b = true → False := by
    intro a b hab ha hb
    have hset : (autoApplyIter img (a + 1)).auto_presets_applied = true :=
      (autoApply_insert_spec (autoApplyIter img a) ha).2
    have hbflag : (autoApplyIter img b).auto_presets_applied = true :=
      autoApplyIter_mono img (a + 1) b hab hset
    have := (autoApply_insert_spec (autoApplyIter img b) hb).1
    rw [hbflag] at this
    cases this
  rcases Nat.lt_trichotomy j k with h | h | h
  · exact absurd (key j k h hj hk) (fun f => f)
  · exact h
  · exact absurd (key k j h hk hj) (fun f => f)

/-- Witness for C4: a freshly imported image (flag unset) gets presets and
the flag; a second run inserts nothing; iterating keeps the flag. -/
theorem C4_auto_presets_once_witness :
    (({ id := 1 } : DtImage).auto_presets_applied = false
      ∧ (_dev_auto_apply_presets { id := 1 }).image.auto_presets_applied = true)
    ∧ ((_dev_auto_apply_presets { id := 1, auto_presets_applied := true }).image
          = { id := 1, auto_presets_applied := true }
      ∧ (_dev_auto_apply_presets { id := 1, auto_presets_applied := true }).presets_inserted
          = false)
    ∧ (autoApplyIter { id := 1 } 3).auto_presets_applied = true
    ∧ (0 : Nat) = 0 :=
  ⟨C4_auto_presets_once.1 { id := 1 } (by decide),
   C4_auto_presets_once.2.1 { id := 1, auto_presets_applied := true } rfl,
   C4_auto_presets_once.2.2.1 { id := 1 } 1 3 (by decide) (by decide),
   C4_auto_presets_once.2.2.2 { id := 1 } 0 0 (by decide) (by decide)⟩

theorem saveViewEq_trans {a b c : Dev} (h1 : saveViewEq a b) (h2 : saveViewEq b c) :
    saveViewEq a c :=
  ⟨h1.1.trans h2.1, h1.2.1.trans h2.2.1, h1.2.2.1.trans h2.2.2.1,
   h1.2.2.2.1.trans h2.2.2.2.1, h1.2.2.2.2.1.trans h2.2.2.2.2.1,
   h1.2.2.2.2.2.1.trans h2.2.2.2.2.2.1, h1.2.2.2.2.2.2.trans h2.2.2.2.2.2.2⟩

theorem auto_save_congr (d d' : Dev) (u n s : ℚ) (h : saveViewEq d d') :
    saveViewEq (_dev_auto_save d u n s) (_dev_auto_save d' u n s) := by
  obtain ⟨h1, h2, h3, h4, h5, h6, h7⟩ := h
  simp only [_dev_auto_save, h2, h3, h4, h5]
  split
  · split
    · exact ⟨rfl, rfl, rfl, rfl, rfl, by rw [h6], rfl⟩
    · exact ⟨h1, rfl, rfl, rfl, rfl, by rw [h6], h7⟩
  · exact ⟨h1, h2, h3, h4, h5, h6, h7⟩

theorem view_ite_autosave (X Y : Dev) (u n s : ℚ) (hXY : saveViewEq X Y) :
    saveViewEq (if X.autosaving then _dev_auto_save X u n s else X)
               (if Y.autosaving then _dev_auto_save Y u n s else Y) := by
  rw [hXY.1]
  by_cases hb : Y.autosaving = true
  · simp only [hb, if_true]
    exact auto_save_congr X Y u n s hXY
  · simp only [hb, if_false]
    exact hXY

theorem afterEnable_view (dev1 : Dev) (mid : Nat) (tail : Option HistItem)
    (ni no im : Bool) (u n s : ℚ) :
    saveViewEq (addItemAfterEnable dev1 mid tail ni no im u n s)
      (if dev1.autosaving then _dev_auto_save dev1 u n s else dev1) := by
  simp only [addItemAfterEnable]
  apply view_ite_autosave
  repeat' split
  all_goals exact ⟨rfl, rfl, rfl, rfl, rfl, rfl, rfl⟩

theorem add_item_view (dev : Dev) (mid : Nat) (enable ni no im : Bool) (u n s : ℚ) :
    saveViewEq (_dev_add_history_item_ext dev mid enable ni no im u n s)
      (if dev.autosaving then _dev_auto_save dev u n s else dev) := by
  unfold _dev_add_history_item_ext addItemCore
  refine saveViewEq_trans (afterEnable_view _ mid _ ni no im u n s) ?_
  apply view_ite_autosave
  cases enable
  · exact ⟨rfl, rfl, rfl, rfl, rfl, rfl, rfl⟩
  · exact ⟨rfl, rfl, rfl, rfl, rfl, rfl, rfl⟩

theorem auto_save_spec (d : Dev) (u n s : ℚ) :
    (_dev_auto_save d u n s).persist_count
      = d.persist_count
        + (if 1 ≤ u ∧ u < n - d.last_save ∧ d.image_loading = false
              ∧ d.requested_id = d.image_id ∧ 0 < d.image_id then 1 else 0) := by
  by_cases hc : (1 ≤ u ∧ u < n - d.last_save ∧ d.image_loading = false
      ∧ d.requested_id = d.image_id ∧ 0 < d.image_id)
  · rw [if_pos hc]
    obtain ⟨h1, h2, h3, h4, h5⟩ := hc
    have hsav : (decide (1 ≤ u) && decide (u < n - d.last_save) && !d.image_loading
        && decide (d.requested_id = d.image_id) && dt_is_valid_imgid d.image_id) = true := by
      simp [h1, h2, h3, h4, dt_is_valid_imgid, h5]
    simp only [_dev_auto_save, hsav, if_true]
    split <;> rfl
  · rw [if_neg hc]
    have hsav : (decide (1 ≤ u) && decide (u < n - d.last_save) && !d.image_loading
        && decide (d.requested_id = d.image_id) && dt_is_valid_imgid d.image_id) = false := by
      by_contra hx
      apply hc
      have hx' : (decide (1 ≤ u) && decide (u < n - d.last_save) && !d.image_loading
          && decide (d.requested_id = d.image_id) && dt_is_valid_imgid d.image_id) = true := by
        revert hx
        cases (decide (1 ≤ u) && decide (u < n - d.last_save) && !d.image_loading
          && decide (d.requested_id = d.image_id) && dt_is_valid_imgid d.image_id) <;> simp
      simp only [Bool.and_eq_true, decide_eq_true_eq, Bool.not_eq_true', dt_is_valid_imgid] at hx'
      exact ⟨hx'.1.1.1.1, hx'.1.1.1.2, hx'.1.1.2, hx'.1.2, by simpa using hx'.2⟩
    simp only [_dev_auto_save, hsav, Bool.false_eq_true, if_false]
    rfl

/-- Amended C7: _dev_auto_save persists history and sidecar exactly when
the configured delay is at least one second, strictly more than that delay
elapsed since the last save, the image is not loading, the requested image
id equals the current valid image id; a persist slower than half a second
disables autosaving for the session and raises the user notice; and
through add_history_item the persist happens exactly when additionally the
autosaving gate is on. -/
theorem C7_autosave_policy :
    (∀ (d : Dev) (u n s : ℚ),
       (_dev_auto_save d u n s).persist_count
         = d.persist_count
           + (if 1 ≤ u ∧ u < n - d.last_save ∧ d.image_loading = false
                 ∧ d.requested_id = d.image_id ∧ 0 < d.image_id then 1 else 0))
    ∧ (∀ (d : Dev) (u n s : ℚ),
        1 ≤ u → u < n - d.last_save → d.image_loading = false →
        d.requested_id = d.image_id → 0 < d.image_id → (1 : ℚ) / 2 < s →
        (_dev_auto_save d u n s).autosaving = false
        ∧ (_dev_auto_save d u n s).slow_drive_notice = true)
    ∧ (∀ (dev : Dev) (mid : Nat) (enable new_item no_image include_masks : Bool)
        (u n s : ℚ),
        (_dev_add_history_item_ext dev mid enable new_item no_image include_masks u n s).persist_count
          = dev.persist_count
            + (if dev.autosaving = true ∧ 1 ≤ u ∧ u < n - dev.last_save
                  ∧ dev.image_loading = false ∧ dev.requested_id = dev.image_id
                  ∧ 0 < dev.image_id then 1 else 0)) := by
  refine ⟨auto_save_spec, ?_, ?_⟩
  · intro d u n s h1 h2 h3 h4 h5 h6
    have hsav : (decide (1 ≤ u) && decide (u < n - d.last_save) && !d.image_loading
        && decide (d.requested_id = d.image_id) && dt_is_valid_imgid d.image_id) = true := by
      simp [h1, h2, h3, h4, dt_is_valid_imgid, h5]
    simp only [_dev_auto_save, hsav, if_true]
    rw [if_pos h6]
    exact ⟨rfl, rfl⟩
  · intro dev mid enable new_item no_image include_masks u n s
    have hview := add_item_view dev mid enable new_item no_image include_masks u n s
    rw [hview.2.2.2.2.2.1]
    by_cases hfull : (dev.autosaving = true ∧ 1 ≤ u ∧ u < n - dev.last_save
        ∧ dev.image_loading = false ∧ dev.requested_id = dev.image_id ∧ 0 < dev.image_id)
    · rw [if_pos hfull, if_pos hfull.1, auto_save_spec, if_pos hfull.2]
    · rw [if_neg hfull]
      by_cases ha : dev.autosaving = true
      · rw [if_pos ha, auto_save_spec, if_neg (fun h => hfull ⟨ha, h⟩)]
      · rw [if_neg ha]
        rfl

/-- Counterexample to C7 as stated: with autosaving on, now − last equal
to the user delay (so now − last ≥ user_delay holds), the image not
loading and the requested id current, the claim says the history is
persisted; the code requires strictly more than the delay to have elapsed
and persists nothing. -/
theorem C7_counterexample :
    c7dev.autosaving = true
    ∧ (1 : ℚ) - c7dev.last_save ≥ 1
    ∧ c7dev.image_loading = false
    ∧ c7dev.requested_id = c7dev.image_id
    ∧ (_dev_add_history_item_ext c7dev 0 false false false false 1 1 0).persist_count
        = c7dev.persist_count := by
  refine ⟨rfl, by norm_num [c7dev], rfl, rfl, ?_⟩
  have h := (C7_autosave_policy.2.2 c7dev 0 false false false false 1 1 0)
  have hnc : ¬(c7dev.autosaving = true ∧ (1 : ℚ) ≤ 1 ∧ (1 : ℚ) < 1 - c7dev.last_save
      ∧ c7dev.image_loading = false ∧ c7dev.requested_id = c7dev.image_id
      ∧ 0 < c7dev.image_id) := by
    intro hx
    have : (1 : ℚ) < 1 - c7dev.last_save := hx.2.2.1
    norm_num [c7dev] at this
  rw [h, if_neg hnc]
  rfl

/-- Witness for the amended C7 at concrete inputs: a strictly late call
persists once and a slow write disables autosaving with the notice. -/
theorem C7_autosave_policy_witness :
    (_dev_auto_save c7dev 1 3 0).persist_count = c7dev.persist_count + 1
    ∧ ((1 : ℚ) ≤ 1 ∧ (1 : ℚ) < 3 - c7dev.last_save ∧ c7dev.image_loading = false
        ∧ c7dev.requested_id = c7dev.image_id ∧ 0 < c7dev.image_id ∧ (1 : ℚ) / 2 < 1)
    ∧ (_dev_auto_save c7dev 1 3 1).autosaving = false
    ∧ (_dev_auto_save c7dev 1 3 1).slow_drive_notice = true
    ∧ (_dev_add_history_item_ext c7dev 0 false false false false 1 3 0).persist_count
        = c7dev.persist_count + 1 := by
  have h1 := C7_autosave_policy.1 c7dev 1 3 0
  have hcond : (1 : ℚ) ≤ 1 ∧ (1 : ℚ) < 3 - c7dev.last_save ∧ c7dev.image_loading = false
      ∧ c7dev.requested_id = c7dev.image_id ∧ 0 < c7dev.image_id := by
    refine ⟨le_refl _, by norm_num [c7dev], rfl, rfl, by norm_num [c7dev]⟩
  have h2 := C7_autosave_policy.2.1 c7dev 1 3 1 hcond.1 hcond.2.1 hcond.2.2.1
    hcond.2.2.2.1 hcond.2.2.2.2 (by norm_num)
  have h3 := C7_autosave_policy.2.2 c7dev 0 false false false false 1 3 0
  refine ⟨?_, ⟨hcond.1, hcond.2.1, hcond.2.2.1, hcond.2.2.2.1, hcond.2.2.2.2, by norm_num⟩,
    h2.1, h2.2, ?_⟩
  · rw [h1, if_pos hcond]
  · rw [h3, if_pos ⟨rfl, hcond.1, hcond.2.1, hcond.2.2.1, hcond.2.2.2.1, hcond.2.2.2.2⟩]

theorem waitHashLoop_false (sd : Nat → Bool) (pr cp : Nat → Nat) (fuel n : Nat)
    (h : ∀ j, j < fuel → sd (n + j) = false ∧ pr (n + j) ≠ cp (n + j)) :
    waitHashLoop sd pr cp fuel n = false := by
  induction fuel generalizing n with
  | zero => rfl
  | succ f ih =>
      have h0 := h 0 (Nat.succ_pos f)
      rw [Nat.add_zero] at h0
      have hne : (pr n == cp n) = false := by
        simp [h0.2]
      simp only [waitHashLoop, h0.1, Bool.false_eq_true, if_false, hne]
      exact ih (n + 1) (fun j hj => by
        rw [show (n + 1) + j = n + (j + 1) from by omega]
        exact h (j + 1) (by omega))

theorem waitHashLoop_true (sd : Nat → Bool) (pr cp : Nat → Nat) (fuel n k : Nat)
    (hk : k < fuel)
    (hpre : ∀ j, j < k → sd (n + j) = false ∧ pr (n + j) ≠ cp (n + j))
    (hstop : sd (n + k) = true ∨ pr (n + k) = cp (n + k)) :
    waitHashLoop sd pr cp fuel n = true := by
  induction fuel generalizing n k with
  | zero => exact absurd hk (Nat.not_lt_zero k)
  | succ f ih =>
      cases k with
      | zero =>
          rw [Nat.add_zero] at hstop
          rcases hstop with hs | hm
          · simp [waitHashLoop, hs]
          · by_cases hsd : sd n = true
            · simp [waitHashLoop, hsd]
            · have hsd' : sd n = false := by
                revert hsd
                cases sd n <;> simp
              simp [waitHashLoop, hsd', hm]
      | succ k' =>
          have h0 := hpre 0 (Nat.succ_pos k')
          rw [Nat.add_zero] at h0
          have hne : (pr n == cp n) = false := by
            simp [h0.2]
          simp only [waitHashLoop, h0.1, Bool.false_eq_true, if_false, hne]
          refine ih (n + 1) k' (Nat.lt_of_succ_lt_succ hk) ?_ ?_
          · intro j hj
            rw [show (n + 1) + j = n + (j + 1) from by omega]
            exact hpre (j + 1) (by omega)
          · rw [show (n + 1) + k' = n + (k' + 1) from by omega]
            exact hstop

/-- Amended C8: the wait polls up to the configured iteration count with
the shutdown atomic checked first each round: a hash match yields Ok with
no side effect; a full timeout yields Ok plus a queued redraw exactly when
the change bitset holds TOP_CHANGED, REMOVE or SYNCH, and TimedOut
otherwise; a set shutdown atomic — and likewise a non-positive configured
count — short-circuits to Ok with no side effect even at a stale hash. -/
theorem C8_hash_wait_protocol :
    (∀ (nloop : Int) (sd : Nat → Bool) (pr cp : Nat → Nat) (changed : PipeFlags),
        nloop ≤ 0 →
        dt_dev_sync_pixelpipe_hash nloop sd pr cp changed = ⟨true, false⟩)
    ∧ (∀ (nloop : Int) (sd : Nat → Bool) (pr cp : Nat → Nat) (changed : PipeFlags)
        (k : Nat),
        k < nloop.toNat →
        (∀ j, j < k → sd j = false ∧ pr j ≠ cp j) →
        pr k = cp k →
        dt_dev_sync_pixelpipe_hash nloop sd pr cp changed = ⟨true, false⟩)
    ∧ (∀ (nloop : Int) (sd : Nat → Bool) (pr cp : Nat → Nat) (changed : PipeFlags)
        (k : Nat),
        k < nloop.toNat →
        (∀ j, j < k → sd j = false ∧ pr j ≠ cp j) →
        sd k = true →
        dt_dev_sync_pixelpipe_hash nloop sd pr cp changed = ⟨true, false⟩)
    ∧ (∀ (nloop : Int) (sd : Nat → Bool) (pr cp : Nat → Nat) (changed : PipeFlags),
        0 < nloop →
        (∀ j, j < nloop.toNat → sd j = false ∧ pr j ≠ cp j) →
        dt_dev_sync_pixelpipe_hash nloop sd pr cp changed
          = ⟨changed.top_changed || changed.remove || changed.synch,
             changed.top_changed || changed.remove || changed.synch⟩) := by
  refine ⟨?_, ?_, ?_, ?_⟩
  · intro nloop sd pr cp changed h
    simp [dt_dev_sync_pixelpipe_hash, dt_dev_wait_hash, h]
  · intro nloop sd pr cp changed k hk hpre hm
    have hw : dt_dev_wait_hash nloop sd pr cp = true := by
      unfold dt_dev_wait_hash
      split
      · rfl
      · exact waitHashLoop_true sd pr cp nloop.toNat 0 k hk
          (fun j hj => by simpa using hpre j hj) (by simpa using Or.inr hm)
    simp [dt_dev_sync_pixelpipe_hash, hw]
  · intro nloop sd pr cp changed k hk hpre hs
    have hw : dt_dev_wait_hash nloop sd pr cp = true := by
      unfold dt_dev_wait_hash
      split
      · rfl
      · exact waitHashLoop_true sd pr cp nloop.toNat 0 k hk
          (fun j hj => by simpa using hpre j hj) (by simpa using Or.inl hs)
    simp [dt_dev_sync_pixelpipe_hash, hw]
  · intro nloop sd pr cp changed hpos hall
    have hnle : ¬ nloop ≤ 0 := by omega
    have hw : dt_dev_wait_hash nloop sd pr cp = false := by
      unfold dt_dev_wait_hash
      rw [if_neg hnle]
      exact waitHashLoop_false sd pr cp nloop.toNat 0
        (fun j hj => by simpa using hall j hj)
    simp only [dt_dev_sync_pixelpipe_hash, hw, Bool.false_eq_true, if_false]
    cases hb : (changed.top_changed || changed.remove || changed.synch) <;> simp [hb]

/-- Counterexample to C8 as stated: with a raised shutdown atomic, a
permanently stale hash (the probed value never equals the recomputed one)
and no change flag raised, dt_dev_sync_pixelpipe_hash returns Ok without
queueing the reprocess side-effect — the claim says Ok is never returned
without the side-effect at a stale hash. -/
theorem C8_counterexample :
    dt_dev_sync_pixelpipe_hash 1 c8shutdown c8probe c8computed {} = ⟨true, false⟩
    ∧ (∀ k : Nat, c8probe k ≠ c8computed k)
    ∧ PipeFlags.top_changed {} = false ∧ PipeFlags.remove {} = false
    ∧ PipeFlags.synch {} = false := by
  refine ⟨rfl, ?_, rfl, rfl, rfl⟩
  intro k
  simp [c8probe, c8computed]

/-- Witness for the amended C8: a non-positive count, an immediate match,
a raised shutdown, and a full stale timeout with TOP_CHANGED raised. -/
theorem C8_hash_wait_protocol_witness :
    dt_dev_sync_pixelpipe_hash 0 c8shutdown c8probe c8computed {} = ⟨true, false⟩
    ∧ dt_dev_sync_pixelpipe_hash 2 (fun _ => false) (fun _ => 5) (fun _ => 5) {}
        = ⟨true, false⟩
    ∧ dt_dev_sync_pixelpipe_hash 1 c8shutdown c8probe c8computed {} = ⟨true, false⟩
    ∧ dt_dev_sync_pixelpipe_hash 1 (fun _ => false) c8probe c8computed
        { top_changed := true } = ⟨true, true⟩ :=
  ⟨C8_hash_wait_protocol.1 0 c8shutdown c8probe c8computed {} (by decide),
   C8_hash_wait_protocol.2.1 2 (fun _ => false) (fun _ => 5) (fun _ => 5) {} 0 (by decide)
     (fun j hj => absurd hj (Nat.not_lt_zero j)) rfl,
   C8_hash_wait_protocol.2.2.1 1 c8shutdown c8probe c8computed {} 0 (by decide)
     (fun j hj => absurd hj (Nat.not_lt_zero j)) rfl,
   C8_hash_wait_protocol.2.2.2 1 (fun _ => false) c8probe c8computed { top_changed := true }
     (by decide) (fun j _ => ⟨rfl, by simp [c8probe, c8computed]⟩)⟩

theorem imageJobLoop_publish (env : RenderEnv) (fuel : Nat) :
    ∀ (t : Nat) (st st' : RenderState) (n : Nat),
    imageJobLoop env fuel t st = some (st', n) →
    st'.backbuf_count ≠ st.backbuf_count →
    st'.image_status = PipeStatus.valid ∧ ∀ j, t ≤ j → j < n → env.gui_leaving j = false := by
  induction fuel with
  | zero => intro t st st' n h; cases h
  | succ f ih =>
      intro t st st' n h hb
      by_cases hl : env.gui_leaving t = true
      · simp only [imageJobLoop, hl, if_true] at h
        cases h
        exact absurd rfl hb
      · have hl' : env.gui_leaving t = false := by
          revert hl
          cases env.gui_leaving t <;> simp
        simp only [imageJobLoop, hl', Bool.false_eq_true, if_false] at h
        by_cases hi : env.interrupted t = true
        · simp only [hi, if_true] at h
          by_cases hf2 : env.force_reload_at t = true
          · simp only [hf2, if_true] at h
            cases h
            exact absurd rfl hb
          · have hf2' : env.force_reload_at t = false := by
              revert hf2
              cases env.force_reload_at t <;> simp
            simp only [hf2', Bool.false_eq_true, if_false] at h
            obtain ⟨hv, hrest⟩ := ih (t + 1) st st' n h hb
            refine ⟨hv, ?_⟩
            intro j hj1 hj2
            rcases Nat.eq_or_lt_of_le hj1 with he | hlt
            · rw [← he]
              exact hl'
            · exact hrest j hlt hj2
        · have hi' : env.interrupted t = false := by
            revert hi
            cases env.interrupted t <;> simp
          simp only [hi', Bool.false_eq_true, if_false] at h
          by_cases hc : env.changed_after t = true
          · simp only [hc, if_true] at h
            obtain ⟨hv, hrest⟩ := ih (t + 1) st st' n h hb
            refine ⟨hv, ?_⟩
            intro j hj1 hj2
            rcases Nat.eq_or_lt_of_le hj1 with he | hlt
            · rw [← he]
              exact hl'
            · exact hrest j hlt hj2
          · have hc' : env.changed_after t = false := by
              revert hc
              cases env.changed_after t <;> simp
            simp only [hc', Bool.false_eq_true, if_false] at h
            cases h
            refine ⟨rfl, ?_⟩
            intro j hj1 hj2
            have : j = t := by omega
            rw [this]
            exact hl'

theorem previewJobLoop_publish (env : RenderEnv) (fuel : Nat) :
    ∀ (t : Nat) (st st' : RenderState) (n : Nat),
    previewJobLoop env fuel t st = some (st', n) →
    st'.backbuf_count ≠ st.backbuf_count →
    st'.preview_status = PipeStatus.valid
    ∧ ∀ j, t ≤ j → j < n → env.gui_leaving j = false := by
  induction fuel with
  | zero => intro t st st' n h; cases h
  | succ f ih =>
      intro t st st' n h hb
      by_cases hl : env.gui_leaving t = true
      · simp only [previewJobLoop, hl, if_true] at h
        cases h
        exact absurd rfl hb
      · have hl' : env.gui_leaving t = false := by
          revert hl
          cases env.gui_leaving t <;> simp
        simp only [previewJobLoop, hl', Bool.false_eq_true, if_false] at h
        by_cases hi : env.interrupted t = true
        · simp only [hi, if_true] at h
          by_cases hf2 : env.loading_or_changed_at t = true
          · simp only [hf2, if_true] at h
            cases h
            exact absurd rfl hb
          · have hf2' : env.loading_or_changed_at t = false := by
              revert hf2
              cases env.loading_or_changed_at t <;> simp
            simp only [hf2', Bool.false_eq_true, if_false] at h
            obtain ⟨hv, hrest⟩ := ih (t + 1) st st' n h hb
            refine ⟨hv, ?_⟩
            intro j hj1 hj2
            rcases Nat.eq_or_lt_of_le hj1 with he | hlt
            · rw [← he]
              exact hl'
            · exact hrest j hlt hj2
        · have hi' : env.interrupted t = false := by
            revert hi
            cases env.interrupted t <;> simp
          simp only [hi', Bool.false_eq_true, if_false] at h
          cases h
          refine ⟨rfl, ?_⟩
          intro j hj1 hj2
          have : j = t := by omega
          rw [this]
          exact hl'

theorem preview2JobLoop_publish (env : RenderEnv) (fuel : Nat) :
    ∀ (t : Nat) (st st' : RenderState) (n : Nat),
    preview2JobLoop env fuel t st = some (st', n) →
    st'.backbuf_count ≠ st.backbuf_count →
    st'.preview2_status = PipeStatus.valid
    ∧ ∀ j, t ≤ j → j < n → env.gui_leaving j = false := by
  induction fuel with
  | zero => intro t st st' n h; cases h
  | succ f ih =>
      intro t st st' n h hb
      by_cases hl : env.gui_leaving t = true
      · simp only [preview2JobLoop, hl, if_true] at h
        cases h
        exact absurd rfl hb
      · have hl' : env.gui_leaving t = false := by
          revert hl
          cases env.gui_leaving t <;> simp
        simp only [preview2JobLoop, hl', Bool.false_eq_true, if_false] at h
        by_cases hi : env.interrupted t = true
        · simp only [hi, if_true] at h
          by_cases hf2 : env.loading_or_changed_at t = true
          · simp only [hf2, if_true] at h
            cases h
            exact absurd rfl hb
          · have hf2' : env.loading_or_changed_at t = false := by
              revert hf2
              cases env.loading_or_changed_at t <;> simp
            simp only [hf2', Bool.false_eq_true, if_false] at h
            obtain ⟨hv, hrest⟩ := ih (t + 1) st st' n h hb
            refine ⟨hv, ?_⟩
            intro j hj1 hj2
            rcases Nat.eq_or_lt_of_le hj1 with he | hlt
            · rw [← he]
              exact hl'
            · exact hrest j hlt hj2
        · have hi' : env.interrupted t = false := by
            revert hi
            cases env.interrupted t <;> simp
          simp only [hi', Bool.false_eq_true, if_false] at h
          cases h
          refine ⟨rfl, ?_⟩
          intro j hj1 hj2
          have : j = t := by omega
          rw [this]
          exact hl'

/-- C9: a render job that samples gui_leaving as set on entry returns at
once with every status word untouched and no back-buffer published; and
any run of the full, preview or secondary job that publishes a back-buffer
(the only exit that also publishes VALID) sampled gui_leaving as unset at
its entry check and at the start of every processing-loop iteration it
reached. -/
theorem C9_gui_leaving_no_valid :
    (∀ (env : RenderEnv) (fuel : Nat) (st : RenderState),
        env.gui_leaving 0 = true →
        dt_dev_process_image_job env fuel st = some (st, 1)
        ∧ (st.image_loading = false →
            dt_dev_process_preview_job env fuel st = some (st, 1))
        ∧ (st.image_loading = false → env.widget_ok = true →
            dt_dev_process_preview2_job env fuel st = some (st, 1)))
    ∧ (∀ (env : RenderEnv) (fuel : Nat) (st st' : RenderState) (n : Nat),
        dt_dev_process_image_job env fuel st = some (st', n) →
        st'.backbuf_count ≠ st.backbuf_count →
        st'.image_status = PipeStatus.valid
        ∧ ∀ t, t < n → env.gui_leaving t = false)
    ∧ (∀ (env : RenderEnv) (fuel : Nat) (st st' : RenderState) (n : Nat),
        dt_dev_process_preview_job env fuel st = some (st', n) →
        st'.backbuf_count ≠ st.backbuf_count →
        st'.preview_status = PipeStatus.valid
        ∧ ∀ t, t < n → env.gui_leaving t = false)
    ∧ (∀ (env : RenderEnv) (fuel : Nat) (st st' : RenderState) (n : Nat),
        dt_dev_process_preview2_job env fuel st = some (st', n) →
        st'.backbuf_count ≠ st.backbuf_count →
        st'.preview2_status = PipeStatus.valid
        ∧ ∀ t, t < n → env.gui_leaving t = false) := by
  refine ⟨?_, ?_, ?_, ?_⟩
  · intro env fuel st hl
    refine ⟨?_, ?_, ?_⟩
    · simp [dt_dev_process_image_job, hl]
    · intro hload
      simp [dt_dev_process_preview_job, hl, hload]
    · intro hload hwid
      simp [dt_dev_process_preview2_job, hl, hload, hwid]
  · intro env fuel st st' n h hb
    by_cases hl : env.gui_leaving 0 = true
    · simp only [dt_dev_process_image_job, hl, if_true] at h
      cases h
      exact absurd rfl hb
    · have hl' : env.gui_leaving 0 = false := by
        revert hl
        cases env.gui_leaving 0 <;> simp
      simp only [dt_dev_process_image_job, hl', Bool.false_eq_true, if_false] at h
      by_cases hbuf : env.buf_ok = true
      · simp only [hbuf, Bool.not_true, Bool.false_eq_true, if_false] at h
        obtain ⟨hv, hrest⟩ := imageJobLoop_publish env fuel 1 _ st' n h (by
          revert hb
          split <;> exact fun x => x)
        refine ⟨hv, ?_⟩
        intro t ht
        cases t with
        | zero => exact hl'
        | succ t' => exact hrest (t' + 1) (Nat.succ_le_succ (Nat.zero_le t')) ht
      · have hbuf' : env.buf_ok = false := by
          revert hbuf
          cases env.buf_ok <;> simp
        simp only [hbuf', Bool.not_false, if_true] at h
        cases h
        exact absurd rfl hb
  · intro env fuel st st' n h hb
    by_cases hload : st.image_loading = true
    · simp only [dt_dev_process_preview_job, hload, if_true] at h
      cases h
      exact absurd rfl hb
    · have hload' : st.image_loading = false := by
        revert hload
        cases st.image_loading <;> simp
      simp only [dt_dev_process_preview_job, hload', Bool.false_eq_true, if_false] at h
      by_cases hl : env.gui_leaving 0 = true
      · simp only [hl, if_true] at h
        cases h
        exact absurd rfl hb
      · have hl' : env.gui_leaving 0 = false := by
          revert hl
          cases env.gui_leaving 0 <;> simp
        simp only [hl', Bool.false_eq_true, if_false] at h
        by_cases hbuf : env.buf_ok = true
        · simp only [hbuf, Bool.not_true, Bool.false_eq_true, if_false] at h
          obtain ⟨hv, hrest⟩ := previewJobLoop_publish env fuel 1 _ st' n h hb
          refine ⟨hv, ?_⟩
          intro t ht
          cases t with
          | zero => exact hl'
          | succ t' => exact hrest (t' + 1) (Nat.succ_le_succ (Nat.zero_le t')) ht
        · have hbuf' : env.buf_ok = false := by
            revert hbuf
            cases env.buf_ok <;> simp
          simp only [hbuf', Bool.not_false, if_true] at h
          cases h
          exact absurd rfl hb
  · intro env fuel st st' n h hb
    by_cases hload : st.image_loading = true
    · simp only [dt_dev_process_preview2_job, hload, if_true] at h
      cases h
      exact absurd rfl hb
    · have hload' : st.image_loading = false := by
        revert hload
        cases st.image_loading <;> simp
      simp only [dt_dev_process_preview2_job, hload', Bool.false_eq_true, if_false] at h
      by_cases hwid : env.widget_ok = true
      · simp only [hwid, Bool.not_true, Bool.false_eq_true, if_false] at h
        by_cases hl : env.gui_leaving 0 = true
        · simp only [hl, if_true] at h
          cases h
          exact absurd rfl hb
        · have hl' : env.gui_leaving 0 = false := by
            revert hl
            cases env.gui_leaving 0 <;> simp
          simp only [hl', Bool.false_eq_true, if_false] at h
          by_cases hbuf : env.buf_ok = true
          · simp only [hbuf, Bool.not_true, Bool.false_eq_true, if_false] at h
            obtain ⟨hv, hrest⟩ := preview2JobLoop_publish env fuel 1 _ st' n h hb
            refine ⟨hv, ?_⟩
            intro t ht
            cases t with
            | zero => exact hl'
            | succ t' => exact hrest (t' + 1) (Nat.succ_le_succ (Nat.zero_le t')) ht
          · have hbuf' : env.buf_ok = false := by
              revert hbuf
              cases env.buf_ok <;> simp
            simp only [hbuf', Bool.not_false, if_true] at h
            cases h
            exact absurd rfl hb
      · have hwid' : env.widget_ok = false := by
          revert hwid
          cases env.widget_ok <;> simp
        simp only [hwid', Bool.not_false, if_true] at h
        cases h
        exact absurd rfl hb

/-- Witness for C9: with gui_leaving raised, all three jobs return with
the state untouched; an undisturbed publishing run has every sampled
gui_leaving check false. -/
theorem C9_gui_leaving_no_valid_witness :
    dt_dev_process_image_job c9envL 1 c9st = some (c9st, 1)
    ∧ dt_dev_process_preview_job c9envL 1 c9st = some (c9st, 1)
    ∧ dt_dev_process_preview2_job c9envL 1 c9st = some (c9st, 1)
    ∧ (c9resI.image_status = PipeStatus.valid
        ∧ ∀ t, t < 2 → c9env.gui_leaving t = false)
    ∧ (c9resP.preview_status = PipeStatus.valid
        ∧ ∀ t, t < 2 → c9env.gui_leaving t = false)
    ∧ (c9resP2.preview2_status = PipeStatus.valid
        ∧ ∀ t, t < 2 → c9env.gui_leaving t = false) :=
  ⟨(C9_gui_leaving_no_valid.1 c9envL 1 c9st rfl).1,
   (C9_gui_leaving_no_valid.1 c9envL 1 c9st rfl).2.1 rfl,
   (C9_gui_leaving_no_valid.1 c9envL 1 c9st rfl).2.2 rfl rfl,
   C9_gui_leaving_no_valid.2.1 c9env 1 c9st c9resI 2 rfl (by decide),
   C9_gui_leaving_no_valid.2.2.1 c9env 1 c9st c9resP 2 rfl (by decide),
   C9_gui_leaving_no_valid.2.2.2 c9env 1 c9st c9resP2 2 rfl (by decide)⟩

theorem digitChar_inj_lt10 : ∀ a < 10, ∀ b < 10, Nat.digitChar a = Nat.digitChar b → a = b := by
  decide

theorem map_digitChar_inj :
    ∀ (l1 l2 : List Nat), (∀ x ∈ l1, x < 10) → (∀ x ∈ l2, x < 10) →
    l1.map Nat.digitChar = l2.map Nat.digitChar → l1 = l2 := by
  intro l1
  induction l1 with
  | nil =>
      intro l2 _ _ h
      cases l2 with
      | nil => rfl
      | cons b t => cases h
  | cons a t ih =>
      intro l2 h1 h2 h
      cases l2 with
      | nil => cases h
      | cons b t2 =>
          simp only [List.map_cons, List.cons.injEq] at h
          have ha : a = b :=
            digitChar_inj_lt10 a (h1 a (List.mem_cons_self a t)) b
              (h2 b (List.mem_cons_self b t2)) h.1
          have ht : t = t2 :=
            ih t2 (fun x hx => h1 x (List.mem_cons_of_mem a hx))
              (fun x hx => h2 x (List.mem_cons_of_mem b hx)) h.2
          rw [ha, ht]

theorem decimalName_injective : Function.Injective decimalName := by
  intro a b h
  unfold decimalName at h
  have hdata := congrArg String.data h
  simp only [] at hdata
  have hlt1 : ∀ x ∈ (Nat.digits 10 a).reverse, x < 10 := by
    intro x hx
    exact Nat.digits_lt_base (by norm_num) (List.mem_reverse.mp hx)
  have hlt2 : ∀ x ∈ (Nat.digits 10 b).reverse, x < 10 := by
    intro x hx
    exact Nat.digits_lt_base (by norm_num) (List.mem_reverse.mp hx)
  have hrev := map_digitChar_inj _ _ hlt1 hlt2 hdata
  have := List.reverse_injective hrev
  exact Nat.digits.injective 10 this

theorem freeNameLoop_not_mem (names : List String) :
    ∀ (fuel p : Nat), (∃ i, i < fuel ∧ decimalName (p + i) ∉ names) →
    decimalName (freeNameLoop names p fuel) ∉ names := by
  intro fuel
  induction fuel with
  | zero =>
      intro p h
      obtain ⟨i, hi, _⟩ := h
      exact absurd hi (Nat.not_lt_zero i)
  | succ f ih =>
      intro p h
      obtain ⟨i, hi, hfree⟩ := h
      by_cases hc : names.contains (decimalName p) = true
      · have hp : decimalName p ∈ names := by
          simpa using hc
        have hi0 : i ≠ 0 := by
          intro h0
          rw [h0, Nat.add_zero] at hfree
          exact hfree hp
        simp only [freeNameLoop, hc, if_true]
        refine ih (p + 1) ⟨i - 1, by omega, ?_⟩
        rw [show (p + 1) + (i - 1) = p + i from by omega]
        exact hfree
      · have hc' : names.contains (decimalName p) = false := by
          revert hc
          cases names.contains (decimalName p) <;> simp
        simp only [freeNameLoop, hc', Bool.false_eq_true, if_false]
        intro hmem
        have hctrue : names.contains (decimalName p) = true := by
          simpa using hmem
        rw [hc'] at hctrue
        cases hctrue

theorem freeName_exists (names : List String) (p : Nat) :
    ∃ i, i < names.length + 1 ∧ decimalName (p + i) ∉ names := by
  by_contra hcon
  push_neg at hcon
  have hall : ∀ i, i < names.length + 1 → decimalName (p + i) ∈ names := hcon
  have hnod : ((List.range (names.length + 1)).map (fun i => decimalName (p + i))).Nodup := by
    refine List.Nodup.map ?_ (List.nodup_range _)
    intro a b hab
    have := decimalName_injective hab
    omega
  have hsub : ((List.range (names.length + 1)).map (fun i => decimalName (p + i)))
      ⊆ names := by
    intro s hs
    obtain ⟨i, hi, rfl⟩ := List.mem_map.mp hs
    exact hall i (List.mem_range.mp hi)
  have h1 : ((List.range (names.length + 1)).map
      (fun i => decimalName (p + i))).toFinset.card = names.length + 1 := by
    rw [List.toFinset_card_of_nodup hnod]
    simp
  have h2 : ((List.range (names.length + 1)).map
      (fun i => decimalName (p + i))).toFinset ⊆ names.toFinset := by
    intro s hs
    rw [List.mem_toFinset] at hs
    rw [List.mem_toFinset]
    exact hsub hs
  have h3 := Finset.card_le_card h2
  have h4 := names.toFinset_card_le
  omega

theorem prio_foldl_le (key : Nat) :
    ∀ (l : List Module) (acc : Nat),
    acc ≤ l.foldl (fun a x => if x.instance_key = key then max a x.multi_priority else a) acc := by
  intro l
  induction l with
  | nil => intro acc; exact Nat.le_refl acc
  | cons a t ih =>
      intro acc
      refine Nat.le_trans ?_ (ih (if a.instance_key = key then max acc a.multi_priority else acc))
      split
      · exact Nat.le_max_left _ _
      · exact Nat.le_refl acc

theorem prio_foldl_ge (key : Nat) :
    ∀ (l : List Module) (acc : Nat) (x : Module), x ∈ l → x.instance_key = key →
    x.multi_priority
      ≤ l.foldl (fun a x => if x.instance_key = key then max a x.multi_priority else a) acc := by
  intro l
  induction l with
  | nil =>
      intro acc x hx
      cases hx
  | cons a t ih =>
      intro acc x hx hkey
      rcases List.mem_cons.mp hx with he | ht
      · subst he
        simp only [List.foldl_cons, hkey, if_true]
        exact Nat.le_trans (Nat.le_max_right acc x.multi_priority) (prio_foldl_le key t _)
      · exact ih _ x ht hkey

theorem prio_foldl_attained (key : Nat) :
    ∀ (l : List Module) (acc : Nat),
    l.foldl (fun a x => if x.instance_key = key then max a x.multi_priority else a) acc = acc
    ∨ ∃ y ∈ l, y.instance_key = key
        ∧ l.foldl (fun a x => if x.instance_key = key then max a x.multi_priority else a) acc
            = y.multi_priority := by
  intro l
  induction l with
  | nil => intro acc; exact Or.inl rfl
  | cons a t ih =>
      intro acc
      simp only [List.foldl_cons]
      by_cases hk : a.instance_key = key
      · simp only [hk, if_true]
        rcases ih (max acc a.multi_priority) with h | ⟨y, hy, hyk, hye⟩
        · rcases max_choice acc a.multi_priority with hm | hm
          · nth_rewrite 2 [hm] at h
            exact Or.inl h
          · nth_rewrite 2 [hm] at h
            exact Or.inr ⟨a, List.mem_cons_self a t, hk, h⟩
        · exact Or.inr ⟨y, List.mem_cons_of_mem a hy, hyk, hye⟩
      · simp only [hk, if_false]
        rcases ih acc with h | ⟨y, hy, hyk, hye⟩
        · exact Or.inl h
        · exact Or.inr ⟨y, List.mem_cons_of_mem a hy, hyk, hye⟩

/-- C10: duplicating a module instance adds a new module whose
instance-priority is one above the maximum among existing instances of the
operation (hence strictly above each of them) and whose multi-name differs
from every existing instance's name; consequently pairwise distinctness of
the (operation, instance-priority) pairs of live instances is preserved. -/
theorem C10_module_duplicate :
    (∀ (dev : Dev) (baseMid freshMid : Nat) (base : Module),
      findModule dev.iop baseMid = some base →
      ∃ newmod ∈ (dt_dev_module_duplicate_ext dev baseMid freshMid).iop,
        newmod.mid = freshMid
        ∧ newmod.instance_key = base.instance_key
        ∧ (∃ y ∈ dev.iop, y.instance_key = base.instance_key
            ∧ newmod.multi_priority = y.multi_priority + 1)
        ∧ (∀ x ∈ dev.iop, x.instance_key = base.instance_key →
            x.multi_priority < newmod.multi_priority)
        ∧ (∀ x ∈ dev.iop, x.instance_key = base.instance_key →
            newmod.multi_name ≠ x.multi_name))
    ∧ (∀ (dev : Dev) (baseMid freshMid : Nat) (base : Module),
        findModule dev.iop baseMid = some base →
        dev.iop.Pairwise (fun a b =>
          ¬(a.instance_key = b.instance_key ∧ a.multi_priority = b.multi_priority)) →
        (dt_dev_module_duplicate_ext dev baseMid freshMid).iop.Pairwise (fun a b =>
          ¬(a.instance_key = b.instance_key ∧ a.multi_priority = b.multi_priority))) := by
  have hshift_inst : ∀ (base y : Module),
      (if base.iop_order < y.iop_order then { y with iop_order := y.iop_order + 1 } else y).instance_key
        = y.instance_key := by
    intro base y
    split <;> rfl
  have hshift_prio : ∀ (base y : Module),
      (if base.iop_order < y.iop_order then { y with iop_order := y.iop_order + 1 } else y).multi_priority
        = y.multi_priority := by
    intro base y
    split <;> rfl
  constructor
  · intro dev baseMid freshMid base hfind
    have hbase : getModuleD dev.iop baseMid = base := getModuleD_of_findModule hfind
    have hbmem : base ∈ dev.iop := List.mem_of_find?_eq_some hfind
    simp only [dt_dev_module_duplicate_ext, hbase, dt_ioppr_insert_module_instance]
    refine ⟨_, (List.mem_orderedInsert _).mpr (Or.inl rfl), rfl, rfl, ?_, ?_, ?_⟩
    · rcases prio_foldl_attained base.instance_key dev.iop 0 with h0 | ⟨y, hy, hyk, hye⟩
      · have hle := prio_foldl_ge base.instance_key dev.iop 0 base hbmem rfl
        rw [h0] at hle
        have hb0 : base.multi_priority = 0 := Nat.le_zero.mp hle
        refine ⟨base, hbmem, rfl, ?_⟩
        show (dev.iop.foldl (fun acc x =>
            if x.instance_key = base.instance_key then max acc x.multi_priority else acc) 0) + 1
          = base.multi_priority + 1
        rw [h0, hb0]
      · refine ⟨y, hy, hyk, ?_⟩
        show (dev.iop.foldl (fun acc x =>
            if x.instance_key = base.instance_key then max acc x.multi_priority else acc) 0) + 1
          = y.multi_priority + 1
        rw [hye]
    · intro x hx hxk
      have := prio_foldl_ge base.instance_key dev.iop 0 x hx hxk
      show x.multi_priority
        < (dev.iop.foldl (fun acc x =>
            if x.instance_key = base.instance_key then max acc x.multi_priority else acc) 0) + 1
      omega
    · intro x hx hxk
      have hfree := freeNameLoop_not_mem
        ((dev.iop.filter (fun z => z.instance_key = base.instance_key)).map
          (fun z => z.multi_name))
        (((dev.iop.filter (fun z => z.instance_key = base.instance_key)).map
          (fun z => z.multi_name)).length + 1)
        ((dev.iop.foldl (fun acc z =>
            if z.instance_key = base.instance_key then max acc z.multi_priority else acc) 0) + 1)
        (freeName_exists _ _)
      intro heq
      have hxin : x.multi_name ∈
          (dev.iop.filter (fun z => z.instance_key = base.instance_key)).map
            (fun z => z.multi_name) :=
        List.mem_map.mpr ⟨x, List.mem_filter.mpr ⟨hx, by simp [hxk]⟩, rfl⟩
      rw [← heq] at hxin
      exact hfree hxin
  · intro dev baseMid freshMid base hfind hpw
    have hbase : getModuleD dev.iop baseMid = base := getModuleD_of_findModule hfind
    simp only [dt_dev_module_duplicate_ext, hbase, dt_ioppr_insert_module_instance]
    have hsymm : ∀ {a b : Module},
        ¬(a.instance_key = b.instance_key ∧ a.multi_priority = b.multi_priority) →
        ¬(b.instance_key = a.instance_key ∧ b.multi_priority = a.multi_priority) := by
      intro a b h hc
      exact h ⟨hc.1.symm, hc.2.symm⟩
    refine ((List.perm_orderedInsert _ _ _).pairwise_iff hsymm).2 ?_
    refine List.Pairwise.cons ?_ ?_
    · intro x hx hc
      obtain ⟨y, hy, rfl⟩ := List.mem_map.mp hx
      rw [hshift_inst base y] at hc
      rw [hshift_prio base y] at hc
      by_cases hyk : y.instance_key = base.instance_key
      · have hlt := prio_foldl_ge base.instance_key dev.iop 0 y hy hyk
        have hc2 : (dev.iop.foldl (fun acc z =>
            if z.instance_key = base.instance_key then max acc z.multi_priority else acc) 0) + 1
          = y.multi_priority := hc.2
        omega
      · exact hyk hc.1.symm
    · rw [List.pairwise_map]
      refine hpw.imp ?_
      intro a b hab hc
      rw [hshift_inst base a, hshift_inst base b, hshift_prio base a, hshift_prio base b] at hc
      exact hab hc

theorem applyHist_mid (h : HistItem) (m : Module) :
    (applyHistToModule h m).mid = m.mid := rfl

theorem foldl_replayStep :
    ∀ (entries : List HistItem) (iop : List Module),
    entries.foldl replayStep iop
      = iop.map (fun m => (entries.filter (fun h => h.mid = m.mid)).foldl
          (fun acc h => applyHistToModule h acc) m) := by
  intro entries
  induction entries with
  | nil =>
      intro iop
      simp
  | cons a t ih =>
      intro iop
      show t.foldl replayStep (replayStep iop a) = _
      rw [ih, replayStep, List.map_map]
      refine List.map_congr_left ?_
      intro m _
      simp only [Function.comp_apply]
      by_cases hmid : m.mid = a.mid
      · rw [if_pos hmid]
        simp only [applyHist_mid]
        rw [List.filter_cons_of_pos (by simp [hmid])]
        rfl
      · rw [if_neg hmid]
        rw [List.filter_cons_of_neg (by simp [Ne.symm hmid])]

/-- C3: popping the history to cursor n resets every module to its defaults
and replays entries [0, n) in order into their modules (so each final module
is the fold of its own entries over its reset state), sets the cursor to n,
and afterwards schedules a REMOVE rebuild of the pipelines exactly when the
derived module ordering changed, marking them SYNCH otherwise. -/
theorem C3_pop_reset_replay :
    ∀ (dev : Dev) (n : Nat), n ≤ dev.history.length →
      (dt_dev_pop_history_items_ext dev n).history_end = n
      ∧ (∀ m ∈ dev.iop,
          ((dev.history.take n).filter (fun h => h.mid = m.mid)).foldl
              (fun acc h => applyHistToModule h acc)
              (resetModule dev.iop_order_list m)
            ∈ (dt_dev_pop_history_items_ext dev n).iop)
      ∧ (∀ m' ∈ (dt_dev_pop_history_items_ext dev n).iop,
          ∃ m ∈ dev.iop,
            m' = ((dev.history.take n).filter (fun h => h.mid = m.mid)).foldl
              (fun acc h => applyHistToModule h acc)
              (resetModule dev.iop_order_list m))
      ∧ (dt_dev_pop_history_items dev n).pipe_changed
          = (if devIopOrderChanged (dev.iop.map (fun m => m.mid))
                (dt_dev_pop_history_items_ext dev n).iop
             then dev.pipe_changed.orRemove else dev.pipe_changed.orSynch)
      ∧ (dt_dev_pop_history_items dev n).preview_pipe_changed
          = (if devIopOrderChanged (dev.iop.map (fun m => m.mid))
                (dt_dev_pop_history_items_ext dev n).iop
             then dev.preview_pipe_changed.orRemove
             else dev.preview_pipe_changed.orSynch)
      ∧ (dt_dev_pop_history_items dev n).preview2_pipe_changed
          = (if devIopOrderChanged (dev.iop.map (fun m => m.mid))
                (dt_dev_pop_history_items_ext dev n).iop
             then dev.preview2_pipe_changed.orRemove
             else dev.preview2_pipe_changed.orSynch) := by
  intro dev n _
  have hiop : (dt_dev_pop_history_items_ext dev n).iop
      = (dev.iop.map (fun m =>
          ((dev.history.take n).filter (fun h => h.mid = m.mid)).foldl
            (fun acc h => applyHistToModule h acc)
            (resetModule dev.iop_order_list m))).mergeSort
          (fun a b => a.iop_order ≤ b.iop_order) := by
    simp only [dt_dev_pop_history_items_ext, dt_ioppr_resync_modules_order]
    rw [foldl_replayStep, List.map_map]
    rfl
  refine ⟨rfl, ?_, ?_, ?_, ?_, ?_⟩
  · intro m hm
    rw [hiop]
    exact List.mem_mergeSort.mpr (List.mem_map.mpr ⟨m, hm, rfl⟩)
  · intro m' hm'
    rw [hiop] at hm'
    obtain ⟨m, hm, hEq⟩ := List.mem_map.mp (List.mem_mergeSort.mp hm')
    exact ⟨m, hm, hEq.symm⟩
  · by_cases hc : devIopOrderChanged (dev.iop.map (fun m => m.mid))
        (dt_dev_pop_history_items_ext dev n).iop = true
    · rw [if_pos hc]
      simp only [dt_dev_pop_history_items]
      rw [if_pos hc]
      rfl
    · rw [if_neg hc]
      simp only [dt_dev_pop_history_items]
      rw [if_neg hc]
      rfl
  · by_cases hc : devIopOrderChanged (dev.iop.map (fun m => m.mid))
        (dt_dev_pop_history_items_ext dev n).iop = true
    · rw [if_pos hc]
      simp only [dt_dev_pop_history_items]
      rw [if_pos hc]
      rfl
    · rw [if_neg hc]
      simp only [dt_dev_pop_history_items]
      rw [if_neg hc]
      rfl
  · by_cases hc : devIopOrderChanged (dev.iop.map (fun m => m.mid))
        (dt_dev_pop_history_items_ext dev n).iop = true
    · rw [if_pos hc]
      simp only [dt_dev_pop_history_items]
      rw [if_pos hc]
      rfl
    · rw [if_neg hc]
      simp only [dt_dev_pop_history_items]
      rw [if_neg hc]
      rfl

/-- Witness for C3 at a concrete one-module, one-entry state. -/
theorem C3_pop_reset_replay_witness :
    1 ≤ c3dev.history.length
    ∧ (dt_dev_pop_history_items_ext c3dev 1).history_end = 1
    ∧ (dt_dev_pop_history_items c3dev 1).pipe_changed
        = (if devIopOrderChanged (c3dev.iop.map (fun m => m.mid))
              (dt_dev_pop_history_items_ext c3dev 1).iop
           then c3dev.pipe_changed.orRemove else c3dev.pipe_changed.orSynch) :=
  ⟨by decide,
   (C3_pop_reset_replay c3dev 1 (by decide)).1,
   (C3_pop_reset_replay c3dev 1 (by decide)).2.2.2.1⟩

theorem getModuleD_map_flags (iop : List Module) (g : Module → Module)
    (hgm : ∀ x, (g x).mid = x.mid) (hgf : ∀ x, (g x).flags = x.flags) (k : Nat) :
    (getModuleD (iop.map g) k).flags = (getModuleD iop k).flags := by
  unfold getModuleD
  rw [findModule_map iop g hgm k]
  cases findModule iop k with
  | none => rfl
  | some m => simpa using hgf m

theorem foldl_applyHist_mid_flags (l : List HistItem) :
    ∀ m0 : Module, (l.foldl (fun acc h => applyHistToModule h acc) m0).mid = m0.mid
      ∧ (l.foldl (fun acc h => applyHistToModule h acc) m0).flags = m0.flags := by
  induction l with
  | nil =>
      intro m0
      exact ⟨rfl, rfl⟩
  | cons a t ih =>
      intro m0
      exact ih (applyHistToModule a m0)

theorem findModule_of_mem_nodup :
    ∀ (iop : List Module), ((iop.map (fun m => m.mid)).Nodup) →
    ∀ m ∈ iop, findModule iop m.mid = some m := by
  intro iop
  induction iop with
  | nil =>
      intro _ m hm
      cases hm
  | cons a l ih =>
      intro hnd m hm
      rw [List.map_cons, List.nodup_cons] at hnd
      rcases List.mem_cons.mp hm with rfl | hm'
      · unfold findModule
        have hp : (m.mid == m.mid) = true := by simp
        simp [List.find?_cons_of_pos, hp]
      · have hne : (a.mid == m.mid) = false := by
          have hmm : m.mid ∈ l.map (fun m => m.mid) := List.mem_map_of_mem _ hm'
          simp only [beq_eq_false_iff_ne, ne_eq]
          intro he
          exact hnd.1 (he ▸ hmm)
        have hrec := ih hnd.2 m hm'
        unfold findModule at hrec ⊢
        simpa [List.find?_cons_of_neg, hne] using hrec

theorem findModule_eq_none (iop : List Module) (k : Nat) :
    findModule iop k = none ↔ ∀ m ∈ iop, m.mid ≠ k := by
  unfold findModule
  rw [List.find?_eq_none]
  constructor
  · intro h m hm he
    exact h m hm (by simp [he])
  · intro h m hm
    simp [h m hm]

theorem findModule_perm_nodup (l l' : List Module) (hperm : l.Perm l')
    (hnd : ((l.map (fun m => m.mid)).Nodup)) (k : Nat) :
    findModule l k = findModule l' k := by
  cases h : findModule l k with
  | some m =>
      have hnd' : ((l'.map (fun m => m.mid)).Nodup) := (hperm.map _).nodup_iff.mp hnd
      have hm : m ∈ l := List.mem_of_find?_eq_some h
      have hmid : m.mid = k := findModule_some_mid l k m h
      rw [← hmid]
      exact (findModule_of_mem_nodup l' hnd' m (hperm.mem_iff.mp hm)).symm
  | none =>
      symm
      rw [findModule_eq_none] at h ⊢
      intro m hm
      exact h m (hperm.mem_iff.mpr hm)

theorem getModuleD_flags_sort_map (iop : List Module) (F : Module → Module)
    (hFmid : ∀ m, (F m).mid = m.mid) (hFflags : ∀ m, (F m).flags = m.flags)
    (hnd : ((iop.map (fun m => m.mid)).Nodup)) (le : Module → Module → Bool) (k : Nat) :
    (getModuleD ((iop.map F).mergeSort le) k).flags = (getModuleD iop k).flags := by
  have hnd2 : (((iop.map F).map (fun m => m.mid)).Nodup) := by
    rw [List.map_map]
    have he : ((fun m : Module => m.mid) ∘ F) = (fun m : Module => m.mid) :=
      funext fun m => hFmid m
    rw [he]
    exact hnd
  have hnds : ((((iop.map F).mergeSort le).map (fun m => m.mid)).Nodup) :=
    ((List.mergeSort_perm _ _).map _).nodup_iff.mpr hnd2
  unfold getModuleD
  rw [findModule_perm_nodup _ _ (List.mergeSort_perm _ _) hnds k]
  rw [findModule_map iop F hFmid k]
  cases findModule iop k with
  | none => rfl
  | some m => simpa using hFflags m

theorem pop_iop_eq (dev : Dev) (n : Nat) :
    (dt_dev_pop_history_items_ext dev n).iop
      = (dev.iop.map (fun m =>
          ((dev.history.take n).filter (fun h => h.mid = m.mid)).foldl
            (fun acc h => applyHistToModule h acc)
            (resetModule dev.iop_order_list m))).mergeSort
          (fun a b => a.iop_order ≤ b.iop_order) := by
  simp only [dt_dev_pop_history_items_ext, dt_ioppr_resync_modules_order]
  rw [foldl_replayStep, List.map_map]
  rfl

theorem pop_flags_eq (dev : Dev) (n k : Nat)
    (hnd : ((dev.iop.map (fun m => m.mid)).Nodup)) :
    (getModuleD (dt_dev_pop_history_items_ext dev n).iop k).flags
      = (getModuleD dev.iop k).flags := by
  rw [pop_iop_eq]
  exact getModuleD_flags_sort_map dev.iop
    (fun m =>
      ((dev.history.take n).filter (fun h => h.mid = m.mid)).foldl
        (fun acc h => applyHistToModule h acc)
        (resetModule dev.iop_order_list m))
    (fun m => (foldl_applyHist_mid_flags _ _).1)
    (fun m => (foldl_applyHist_mid_flags _ _).2)
    hnd _ k

theorem truncate_iop (dev : Dev) : (truncateRedoTail dev).iop = dev.iop := rfl

theorem truncate_subset (dev : Dev) :
    ∀ e ∈ (truncateRedoTail dev).history, e ∈ dev.history := by
  intro e he
  simp only [truncateRedoTail, truncLoop_spec] at he
  rcases List.mem_append.mp he with h | h
  · exact List.mem_of_mem_take h
  · exact List.mem_of_mem_drop (List.mem_of_mem_filter h)

theorem truncate_len (dev : Dev) :
    (truncateRedoTail dev).history_end = (truncateRedoTail dev).history.length := by
  by_cases hle : dev.history_end ≤ dev.history.length
  · simp only [truncateRedoTail, truncLoop_spec, List.length_append]
    rw [List.length_take_of_le hle]
    rw [Nat.min_eq_left (Nat.le_add_right _ _)]
  · have hlen : dev.history.length ≤ dev.history_end := le_of_not_le hle
    have hdrop : dev.history.drop dev.history_end = [] :=
      List.drop_eq_nil_of_le hlen
    simp only [truncateRedoTail, truncLoop_spec, hdrop, List.filter_nil, List.length_nil,
      List.append_nil, Nat.add_zero, List.length_take]
    omega

theorem setWriteHint_flags (iop : List Module) (mid k : Nat) :
    (getModuleD (setWriteHint iop mid) k).flags = (getModuleD iop k).flags := by
  unfold setWriteHint
  exact getModuleD_map_flags iop _ (setWriteHint_mid mid)
    (fun x => by by_cases hx : x.mid = mid <;> simp [hx]) k

theorem setIopOrder_flags (iop : List Module) (mid : Nat) (iord : Int) (k : Nat) :
    (getModuleD (setIopOrder iop mid iord) k).flags = (getModuleD iop k).flags := by
  unfold setIopOrder
  exact getModuleD_map_flags iop _
    (fun x => by by_cases hx : x.mid = mid <;> simp [hx])
    (fun x => by by_cases hx : x.mid = mid <;> simp [hx]) k

theorem enable_step_flags (dev : Dev) (enable : Bool) (mid k : Nat) :
    (getModuleD (if enable then { dev with iop := setEnabled dev.iop mid } else dev).iop k).flags
      = (getModuleD dev.iop k).flags := by
  cases enable
  · rfl
  · simp only [if_true]
    unfold setEnabled
    exact getModuleD_map_flags dev.iop _ (setEnabled_mid mid)
      (fun x => by by_cases hx : x.mid = mid <;> simp [hx]) k

theorem auto_save_iop (d : Dev) (u n s : ℚ) : (_dev_auto_save d u n s).iop = d.iop :=
  (auto_save_frame d u n s).2.2.1

theorem afterEnable_flags (dev1 : Dev) (mid : Nat) (tail : Option HistItem)
    (ni im : Bool) (u n s : ℚ) (k : Nat) :
    (getModuleD (addItemAfterEnable dev1 mid tail ni false im u n s).iop k).flags
      = (getModuleD dev1.iop k).flags := by
  simp only [addItemAfterEnable, Bool.false_eq_true, if_false]
  repeat' split
  all_goals try rw [auto_save_iop]
  all_goals simp only [setWriteHint_flags]

theorem addItem_history_shape (dev : Dev) (mid : Nat) (m : Module)
    (enable new_item include_masks : Bool) (u n s : ℚ)
    (hfind : findModule dev.iop mid = some m) :
    ∃ (kept : List HistItem) (enew : HistItem),
      (_dev_add_history_item_ext dev mid enable new_item false include_masks u n s).history
          = kept ++ [enew]
      ∧ (∀ e ∈ kept, e ∈ dev.history)
      ∧ enew.mid = mid
      ∧ enew.enabled = (if enable then true else m.enabled)
      ∧ (∀ k, (getModuleD
            (_dev_add_history_item_ext dev mid enable new_item false include_masks u n s).iop
            k).flags = (getModuleD dev.iop k).flags) := by
  simp only [_dev_add_history_item_ext]
  set dev0 := truncateRedoTail dev with hdev0
  have h0iop : dev0.iop = dev.iop := truncate_iop dev
  have h0sub : ∀ e ∈ dev0.history, e ∈ dev.history := truncate_subset dev
  have h0len : dev0.history_end = dev0.history.length := truncate_len dev
  have hfind0 : findModule dev0.iop mid = some m := by
    rw [h0iop]
    exact hfind
  simp only [addItemCore]
  have hfind1 := enable_step_find dev0 enable mid m hfind0
  have hframe := enable_step_frame dev0 enable mid
  have hm1mid : (if enable then { m with enabled := true } else m).mid = mid := by
    have := findModule_some_mid _ _ _ hfind0
    cases enable <;> simpa using this
  have hm1en : (if enable then { m with enabled := true } else m).enabled
      = (if enable then true else m.enabled) := by
    cases enable <;> rfl
  set dev1 := (if enable then { dev0 with iop := setEnabled dev0.iop mid } else dev0) with hdev1
  set m1 := (if enable then { m with enabled := true } else m) with hm1
  set tt := (if dev0.history_end = 0 then none else dev0.history[dev0.history_end - 1]?) with htt
  have h1flags : ∀ k, (getModuleD dev1.iop k).flags = (getModuleD dev.iop k).flags := by
    intro k
    refine (enable_step_flags dev0 enable mid k).trans ?_
    rw [h0iop]
  by_cases hp : pushCond dev1 m1 new_item include_masks tt = true
  · obtain ⟨hh, _, _, _, _, _, _⟩ :=
      afterEnable_push dev1 mid m1 tt new_item include_masks u n s hfind1 hp
    refine ⟨dev1.history, snapshotEntry dev1 m1 include_masks, hh, ?_, ?_, ?_, ?_⟩
    · intro e he
      exact h0sub e (hframe.1 ▸ he)
    · simpa [snapshotEntry] using hm1mid
    · simpa [snapshotEntry] using hm1en
    · intro k
      exact (afterEnable_flags dev1 mid tt new_item include_masks u n s k).trans (h1flags k)
  · have hpf : pushCond dev1 m1 new_item include_masks tt = false := by
      revert hp
      cases pushCond dev1 m1 new_item include_masks tt <;> simp
    have hni : new_item = false := by
      cases hnic : new_item
      · rfl
      · rw [hnic, pushCond_true_of_new_item dev1 m1 include_masks tt] at hpf
        cases hpf
    subst hni
    have hne : dev0.history ≠ [] := by
      intro h0
      have hend0 : dev0.history_end = 0 := by
        rw [h0len, h0]
        rfl
      have httn : tt = none := by
        rw [htt]
        simp [hend0]
      rw [httn] at hpf
      simp [pushCond] at hpf
    have hhist : dev0.history = dev0.history.dropLast ++ [dev0.history.getLast hne] :=
      (List.dropLast_append_getLast hne).symm
    have htt2 : tt = some (dev0.history.getLast hne) := by
      rw [htt]
      exact tail_lookup_some dev0 _ _ hhist h0len
    rw [htt2] at hpf
    have hmid : (dev0.history.getLast hne).mid = mid := by
      by_contra hx
      have := pushCond_true_cases dev1 mid m1 (dev0.history.getLast hne) include_masks hfind1
        (Or.inl hx)
      rw [this] at hpf
      cases hpf
    have hhist1 : dev1.history = dev0.history.dropLast ++ [dev0.history.getLast hne] :=
      hframe.1.trans hhist
    have hlen1 : dev1.history_end = dev1.history.length := by
      rw [hframe.2.1, hframe.1]
      exact h0len
    rw [htt2]
    obtain ⟨hh, _, _, _, _, _, _⟩ :=
      afterEnable_replace dev1 mid m1 _ _ include_masks u n s hfind1 hhist1 hlen1 hpf
    refine ⟨dev0.history.dropLast,
      replaceEntry dev1 m1 include_masks (dev0.history.getLast hne), hh, ?_, ?_, ?_, ?_⟩
    · intro e he
      exact h0sub e ((List.dropLast_sublist _).subset he)
    · simpa [replaceEntry] using hmid
    · simpa [replaceEntry] using hm1en
    · intro k
      exact (afterEnable_flags dev1 mid (some (dev0.history.getLast hne)) false include_masks
        u n s k).trans (h1flags k)

theorem readHistoryEntry_mid (env : ReadEnv) (row : DbRow) (name mid : Nat)
    (m : Module) (iord : Int) :
    ∀ e, readHistoryEntry env row name mid m iord = some e → e.mid = mid := by
  intro e he
  simp only [readHistoryEntry] at he
  split at he
  · cases he
    rfl
  · split at he
    · cases he
      rfl
    · split at he
      · cases he
      · split at he
        · cases he
          rfl
        · cases he
          rfl

theorem readHistoryAppend_shape (st : ReadState) (iop3 : List Module) (fresh' : Nat)
    (m : Module) (mid : Nat) (entry? : Option HistItem)
    (hm : getModuleD iop3 mid = m)
    (hmid : ∀ e0, entry? = some e0 → e0.mid = mid)
    (hns : m.flags.no_history_stack = false) :
    (readHistoryAppend st iop3 fresh' m entry?).history = st.history
    ∨ ∃ e : HistItem,
        (readHistoryAppend st iop3 fresh' m entry?).history = st.history ++ [e]
        ∧ entryAlwaysOn (readHistoryAppend st iop3 fresh' m entry?).iop e
        ∧ (getModuleD (readHistoryAppend st iop3 fresh' m entry?).iop
            e.mid).flags.no_history_stack = false := by
  cases entry? with
  | none => exact Or.inl rfl
  | some e0 =>
      have he0 : e0.mid = mid := hmid e0 rfl
      simp only [readHistoryAppend]
      by_cases hfc : (m.flags.default_enabled && m.flags.hide_enable_button) = true
      · rw [if_pos hfc]
        refine Or.inr ⟨_, rfl, fun _ => rfl, ?_⟩
        show (getModuleD iop3 e0.mid).flags.no_history_stack = false
        rw [he0, hm]
        exact hns
      · rw [if_neg hfc]
        refine Or.inr ⟨_, rfl, ?_, ?_⟩
        · intro hyp
          have h2 : ((getModuleD iop3 mid).flags.default_enabled
              && (getModuleD iop3 mid).flags.hide_enable_button) = true := by
            simpa [entryAlwaysOn, he0] using hyp
          rw [hm] at h2
          exact absurd h2 hfc
        · show (getModuleD iop3 e0.mid).flags.no_history_stack = false
          rw [he0, hm]
          exact hns

theorem readHistoryRowBody_shape (env : ReadEnv) (olist : List IopOrderEntry)
    (hend : Nat) (st : ReadState) (row : DbRow) (name mid : Nat)
    (iop2 : List Module) (fresh' : Nat) :
    (readHistoryRowBody env olist hend st row name mid iop2 fresh').history = st.history
    ∨ ∃ e : HistItem,
        (readHistoryRowBody env olist hend st row name mid iop2 fresh').history
            = st.history ++ [e]
        ∧ entryAlwaysOn (readHistoryRowBody env olist hend st row name mid iop2 fresh').iop e
        ∧ (getModuleD (readHistoryRowBody env olist hend st row name mid iop2 fresh').iop
            e.mid).flags.no_history_stack = false := by
  simp only [readHistoryRowBody]
  by_cases hgate : (getModuleD iop2 mid).flags.no_history_stack = true
  · rw [if_pos hgate]
    exact Or.inl rfl
  · rw [if_neg hgate]
    have hns : (getModuleD (if hend > st.history_end
        then setIopOrder iop2 mid (dt_ioppr_get_iop_order olist name row.multi_priority)
        else iop2) mid).flags.no_history_stack = false := by
      split
      · rw [setIopOrder_flags]
        exact Bool.eq_false_iff.mpr hgate
      · exact Bool.eq_false_iff.mpr hgate
    exact readHistoryAppend_shape st _ fresh' _ mid _ rfl
      (readHistoryEntry_mid env row name mid _ _) hns

theorem readHistoryRow_shape (env : ReadEnv) (olist : List IopOrderEntry)
    (hend : Nat) (imgid : Int) (st : ReadState) (row : DbRow) :
    (readHistoryRow env olist hend imgid st row).history = st.history
    ∨ ∃ e : HistItem,
        (readHistoryRow env olist hend imgid st row).history = st.history ++ [e]
        ∧ entryAlwaysOn (readHistoryRow env olist hend imgid st row).iop e
        ∧ (getModuleD (readHistoryRow env olist hend imgid st row).iop e.mid).flags.no_history_stack
            = false := by
  simp only [readHistoryRow]
  split
  · exact Or.inl rfl
  split
  · exact Or.inl rfl
  split
  · exact Or.inl rfl
  exact readHistoryRowBody_shape _ _ _ _ _ _ _ _ _

/-- C5: a history entry whose operation is always-on (DEFAULT_ENABLED with
HIDE_ENABLE_BUTTON) is enabled.  The history read loop forces the flag on
every appended entry regardless of the stored row value; the history append
preserves the invariant whenever the live module list satisfies its
module-side counterpart, and a history pop preserves it as well. -/
theorem C5_always_on_invariant :
    (∀ (env : ReadEnv) (olist : List IopOrderEntry) (hend : Nat) (imgid : Int)
        (st : ReadState) (row : DbRow),
      ∀ e ∈ (readHistoryRow env olist hend imgid st row).history,
        e ∈ st.history ∨ entryAlwaysOn (readHistoryRow env olist hend imgid st row).iop e)
    ∧ (∀ (dev : Dev) (mid : Nat) (m : Module) (enable new_item include_masks : Bool)
        (u n s : ℚ),
        findModule dev.iop mid = some m →
        modAlwaysOn dev.iop →
        (∀ e ∈ dev.history, entryAlwaysOn dev.iop e) →
        ∀ e ∈ (_dev_add_history_item_ext dev mid enable new_item false include_masks
            u n s).history,
          entryAlwaysOn
            (_dev_add_history_item_ext dev mid enable new_item false include_masks u n s).iop e)
    ∧ (∀ (dev : Dev) (n : Nat),
        ((dev.iop.map (fun m => m.mid)).Nodup) →
        (∀ e ∈ dev.history, entryAlwaysOn dev.iop e) →
        ∀ e ∈ (dt_dev_pop_history_items_ext dev n).history,
          entryAlwaysOn (dt_dev_pop_history_items_ext dev n).iop e) := by
  refine ⟨?_, ?_, ?_⟩
  · intro env olist hend imgid st row e he
    rcases readHistoryRow_shape env olist hend imgid st row with hsame | ⟨e1, hh, hforce, _⟩
    · rw [hsame] at he
      exact Or.inl he
    · rw [hh] at he
      rcases List.mem_append.mp he with h | h
      · exact Or.inl h
      · have he1 : e = e1 := List.mem_singleton.mp h
        subst he1
        exact Or.inr hforce
  · intro dev mid m enable new_item include_masks u n s hfind hM hI e he
    obtain ⟨kept, enew, hh, hsub, hmid, hen, hflags⟩ :=
      addItem_history_shape dev mid m enable new_item include_masks u n s hfind
    rw [hh] at he
    intro hyp
    rw [hflags e.mid] at hyp
    rcases List.mem_append.mp he with h | h
    · exact hI e (hsub e h) hyp
    · have he1 : e = enew := List.mem_singleton.mp h
      subst he1
      rw [hmid, getModuleD_of_findModule hfind] at hyp
      have hmen : m.enabled = true := hM m (List.mem_of_find?_eq_some hfind) hyp
      rw [hen]
      cases enable
      · simpa using hmen
      · simp
  · intro dev n hnd hI e he
    have hh : (dt_dev_pop_history_items_ext dev n).history = dev.history := rfl
    rw [hh] at he
    intro hyp
    rw [pop_flags_eq dev n e.mid hnd] at hyp
    exact hI e he hyp

/-- Witness for C5 at a concrete always-on state. -/
theorem C5_always_on_invariant_witness :
    (c5e ∈ c5st.history ∨ entryAlwaysOn (readHistoryRow c5env [] 0 1 c5st c5row).iop c5e)
    ∧ entryAlwaysOn (_dev_add_history_item_ext c5dev 1 false false false false 0 0 0).iop c5e
    ∧ entryAlwaysOn (dt_dev_pop_history_items_ext c5dev 1).iop c5e :=
  ⟨C5_always_on_invariant.1 c5env [] 0 1 c5st c5row c5e (by decide),
   C5_always_on_invariant.2.1 c5dev 1 c5mod false false false 0 0 0 (by decide) (by decide)
     (by decide) c5e (by decide),
   C5_always_on_invariant.2.2 c5dev 1 (by decide) (by decide) c5e (by decide)⟩

/-- C6: no history entry belongs to a NO_HISTORY_STACK operation.  The
history read loop never appends an entry of such a module; default-module
insertion excludes them; and the two history-mutating operations (append of
a non-NO_HISTORY_STACK module, and pop) preserve the property. -/
theorem C6_no_history_stack :
    (∀ (env : ReadEnv) (olist : List IopOrderEntry) (hend : Nat) (imgid : Int)
        (st : ReadState) (row : DbRow),
      ∀ e ∈ (readHistoryRow env olist hend imgid st row).history,
        e ∈ st.history
        ∨ (getModuleD (readHistoryRow env olist hend imgid st row).iop
            e.mid).flags.no_history_stack = false)
    ∧ (∀ (iop : List Module) (existsInDb : Nat → Bool),
        ∀ m ∈ _dev_add_default_modules iop existsInDb, m.flags.no_history_stack = false)
    ∧ (∀ (dev : Dev) (mid : Nat) (m : Module) (enable new_item include_masks : Bool)
        (u n s : ℚ),
        findModule dev.iop mid = some m →
        m.flags.no_history_stack = false →
        (∀ e ∈ dev.history, (getModuleD dev.iop e.mid).flags.no_history_stack = false) →
        ∀ e ∈ (_dev_add_history_item_ext dev mid enable new_item false include_masks
            u n s).history,
          (getModuleD (_dev_add_history_item_ext dev mid enable new_item false include_masks
            u n s).iop e.mid).flags.no_history_stack = false)
    ∧ (∀ (dev : Dev) (n : Nat),
        ((dev.iop.map (fun m => m.mid)).Nodup) →
        (∀ e ∈ dev.history, (getModuleD dev.iop e.mid).flags.no_history_stack = false) →
        ∀ e ∈ (dt_dev_pop_history_items_ext dev n).history,
          (getModuleD (dt_dev_pop_history_items_ext dev n).iop e.mid).flags.no_history_stack
            = false) := by
  refine ⟨?_, ?_, ?_, ?_⟩
  · intro env olist hend imgid st row e he
    rcases readHistoryRow_shape env olist hend imgid st row with hsame | ⟨e1, hh, _, hnhs⟩
    · rw [hsame] at he
      exact Or.inl he
    · rw [hh] at he
      rcases List.mem_append.mp he with h | h
      · exact Or.inl h
      · have he1 : e = e1 := List.mem_singleton.mp h
        subst he1
        exact Or.inr hnhs
  · intro iop existsInDb m hm
    simp only [_dev_add_default_modules] at hm
    rcases List.mem_append.mp hm with h | h
    · have h2 := (List.mem_filter.mp h).2
      revert h2
      cases m.flags.no_history_stack <;> simp
    · have h2 := (List.mem_filter.mp h).2
      revert h2
      cases m.flags.no_history_stack <;> simp
  · intro dev mid m enable new_item include_masks u n s hfind hmn hI e he
    obtain ⟨kept, enew, hh, hsub, hmid, _, hflags⟩ :=
      addItem_history_shape dev mid m enable new_item include_masks u n s hfind
    rw [hh] at he
    rw [hflags e.mid]
    rcases List.mem_append.mp he with h | h
    · exact hI e (hsub e h)
    · have he1 : e = enew := List.mem_singleton.mp h
      subst he1
      rw [hmid, getModuleD_of_findModule hfind]
      exact hmn
  · intro dev n hnd hI e he
    have hh : (dt_dev_pop_history_items_ext dev n).history = dev.history := rfl
    rw [hh] at he
    rw [pop_flags_eq dev n e.mid hnd]
    exact hI e he

/-- Witness for C6 at the always-on state of the C5 witness. -/
theorem C6_no_history_stack_witness :
    (c5e ∈ c5st.history
      ∨ (getModuleD (readHistoryRow c5env [] 0 1 c5st c5row).iop
          c5e.mid).flags.no_history_stack = false)
    ∧ c5mod.flags.no_history_stack = false
    ∧ (getModuleD (_dev_add_history_item_ext c5dev 1 false false false false 0 0 0).iop
        c5e.mid).flags.no_history_stack = false
    ∧ (getModuleD (dt_dev_pop_history_items_ext c5dev 1).iop c5e.mid).flags.no_history_stack
        = false :=
  ⟨C6_no_history_stack.1 c5env [] 0 1 c5st c5row c5e (by decide),
   C6_no_history_stack.2.1 [c5mod] (fun _ => false) c5mod (by decide),
   C6_no_history_stack.2.2.1 c5dev 1 c5mod false false false 0 0 0 (by decide) (by decide)
     (by decide) c5e (by decide),
   C6_no_history_stack.2.2.2 c5dev 1 (by decide) (by decide) c5e (by decide)⟩

/-- Witness for C10 at a concrete one-instance state. -/
theorem C10_module_duplicate_witness :
    (∃ newmod ∈ (dt_dev_module_duplicate_ext c10dev 1 2).iop,
      newmod.mid = 2
      ∧ newmod.instance_key = c10base.instance_key
      ∧ (∃ y ∈ c10dev.iop, y.instance_key = c10base.instance_key
          ∧ newmod.multi_priority = y.multi_priority + 1)
      ∧ (∀ x ∈ c10dev.iop, x.instance_key = c10base.instance_key →
          x.multi_priority < newmod.multi_priority)
      ∧ (∀ x ∈ c10dev.iop, x.instance_key = c10base.instance_key →
          newmod.multi_name ≠ x.multi_name))
    ∧ (dt_dev_module_duplicate_ext c10dev 1 2).iop.Pairwise (fun a b =>
        ¬(a.instance_key = b.instance_key ∧ a.multi_priority = b.multi_priority)) :=
  ⟨C10_module_duplicate.1 c10dev 1 2 c10base (by decide),
   C10_module_duplicate.2 c10dev 1 2 c10base (by decide) (List.pairwise_singleton _ _)⟩

end Develop
